import Mathlib

/-!
Verification of the `gir-module.ts` semantic translator of ts-for-gjs.

The definitions below are a shallow embedding of `src/src/gir-module.ts`.
Modelling conventions, chosen to mirror the JavaScript runtime semantics of
the source:

* XML attribute values are `String`s where the empty string `""` stands for
  an absent attribute.  Everywhere the source only tests truthiness of an
  attribute (`if (attr)`), `undefined` and `""` behave identically, so this
  collapse is observationally faithful for the embedded code paths.
* The `$` attribute objects are always present after XML parsing, so guards
  of the form `if (x.$)` in the source are modelled as always true.
* `parseInt` is modelled by `jsParseInt` returning `Option Int`, `none`
  standing for `NaN`.
* Logging (`this.log.warn`, `console.log`) is modelled by returning a
  `List String` of warning lines alongside the value, in those functions
  where diagnostics matter to the specification.
* A thrown JavaScript `TypeError` is modelled by an `Option` result being
  `none`.
* External collaborator modules that are not part of `src/`
  (`transformation.ts`, `template-processor.ts`, `logger.ts`, `utils.ts`)
  are modelled from the spec; each such definition carries a doc comment
  starting with `Modelled from the spec:`.
-/

/-- JavaScript string truthiness: the empty string is falsy. -/
def jsTruthy (s : String) : Bool := s ≠ ""

/-- Character is an ASCII decimal digit. -/
def isDigitChar (c : Char) : Bool := '0' ≤ c ∧ c ≤ '9'

/-- Character is an ASCII hexadecimal digit. -/
def isHexDigitChar (c : Char) : Bool :=
  isDigitChar c ∨ ('a' ≤ c ∧ c ≤ 'f') ∨ ('A' ≤ c ∧ c ≤ 'F')

/-- Character is a JavaScript whitespace character (the common ones). -/
def isSpaceChar (c : Char) : Bool := c = ' ' ∨ c = '\t' ∨ c = '\n' ∨ c = '\r'

/-- Value of a decimal digit character. -/
def digitVal (c : Char) : Nat := c.toNat - '0'.toNat

/-- Value of a hexadecimal digit character. -/
def hexVal (c : Char) : Nat :=
  if isDigitChar c then digitVal c
  else if 'a' ≤ c ∧ c ≤ 'f' then c.toNat - 'a'.toNat + 10
  else c.toNat - 'A'.toNat + 10

/-- Parse a maximal run of digits in the given base; `none` when the run is
empty (`parseInt` yields `NaN` when no digit is found). -/
def parseDigitRun (digitOk : Char → Bool) (base : Nat) (val : Char → Nat)
    (cs : List Char) : Option Nat :=
  let ds := cs.takeWhile digitOk
  if ds.isEmpty then none
  else some (ds.foldl (fun a c => a * base + val c) 0)

/-- JavaScript `parseInt(s)` with automatic radix detection (`0x` prefix for
hexadecimal, otherwise decimal); `none` models `NaN`. -/
def jsParseInt (s : String) : Option Int :=
  let cs0 := s.toList.dropWhile isSpaceChar
  let sgn : Int := match cs0 with
    | '-' :: _ => -1
    | _ => 1
  let cs : List Char := match cs0 with
    | '-' :: r => r
    | '+' :: r => r
    | r => r
  match cs with
  | '0' :: x :: r =>
    if x = 'x' ∨ x = 'X' then
      (parseDigitRun isHexDigitChar 16 hexVal r).map (fun n => sgn * (n : Int))
    else
      (parseDigitRun isDigitChar 10 digitVal ('0' :: x :: r)).map (fun n => sgn * (n : Int))
  | _ => (parseDigitRun isDigitChar 10 digitVal cs).map (fun n => sgn * (n : Int))

/-- The `girBool` attribute decoder (gir-module.ts: an attribute string is
false iff it parses to the integer 0; an absent attribute yields the
default). -/
def girBool (e : String) (defaultVal : Bool := false) : Bool :=
  if jsTruthy e then
    if jsParseInt e = some 0 then false else true
  else defaultVal

/-! ## GIR data model

Shapes follow the uses in `gir-module.ts` (the `types.ts` declarations are
not part of `src/`; the shapes are fully determined by the accesses the
embedded code performs, plus the GIR input format of the spec). -/

/-- Attribute set of a `<type>` element. -/
structure GirTypeAttrs where
  name : String
  cType : String
  deriving DecidableEq, Repr

/-- Attribute set of an `<array>` element. -/
structure GirArrayAttrs where
  length : String
  cType : String
  deriving DecidableEq, Repr

/-- A `<type>` element; GIR allows nested element types
(e.g. `<type name="GLib.List"><type name="utf8"/></type>`). -/
inductive GirTypeElem where
  | mk (attrs : GirTypeAttrs) (type : Option (List GirTypeElem))

def GirTypeElem.attrs : GirTypeElem → GirTypeAttrs
  | .mk a _ => a

def GirTypeElem.type : GirTypeElem → Option (List GirTypeElem)
  | .mk _ t => t

/-- An `<array>` element. -/
structure GirArrayElem where
  attrs : GirArrayAttrs
  type : Option (List GirTypeElem)

/-- Attribute set of a variable-like element (parameter, property, field,
constant, alias, return value). -/
structure VarAttrs where
  name : String
  direction : String
  nullable : String
  allowNone : String
  optional : String
  closure : String
  destroy : String
  introspectable : String
  priv : String
  writable : String
  constructOnly : String
  deriving DecidableEq, Repr

/-- Attribute set of a function-like element. -/
structure FuncAttrs where
  name : String
  introspectable : String
  shadowedBy : String
  shadows : String
  deriving DecidableEq, Repr

mutual
/-- A variable-like GIR node (`GirVariable` in the source), together with
the `_module` / `_fullSymName` annotations written during population
(`_module` keeps just the owning module's name: only `.name` is ever read
from it in the embedded code). -/
inductive GirVariable where
  | mk (attrs : VarAttrs) (array : Option (List GirArrayElem))
       (type : Option (List GirTypeElem)) (callback : Option (List GirFunction))
       (module : String) (fullSymName : String)

/-- A function-like GIR node (function, method, callback, signal, ...). -/
inductive GirFunction where
  | mk (attrs : FuncAttrs) (parameters : Option (List GirParameter))
       (returnValue : Option (List GirVariable)) (fullSymName : String)

/-- A `<parameters>` block. -/
inductive GirParameter where
  | mk (parameter : List GirVariable) (instanceParameter : List GirVariable)
end

def GirVariable.attrs : GirVariable → VarAttrs
  | .mk a _ _ _ _ _ => a

def GirVariable.array : GirVariable → Option (List GirArrayElem)
  | .mk _ arr _ _ _ _ => arr

def GirVariable.type : GirVariable → Option (List GirTypeElem)
  | .mk _ _ t _ _ _ => t

def GirVariable.callback : GirVariable → Option (List GirFunction)
  | .mk _ _ _ cb _ _ => cb

def GirVariable.module : GirVariable → String
  | .mk _ _ _ _ m _ => m

def GirVariable.fullSymName : GirVariable → String
  | .mk _ _ _ _ _ f => f

def GirFunction.attrs : GirFunction → FuncAttrs
  | .mk a _ _ _ => a

def GirFunction.parameters : GirFunction → Option (List GirParameter)
  | .mk _ p _ _ => p

def GirFunction.returnValue : GirFunction → Option (List GirVariable)
  | .mk _ _ r _ => r

def GirFunction.fullSymName : GirFunction → String
  | .mk _ _ _ f => f

def GirParameter.parameter : GirParameter → List GirVariable
  | .mk p _ => p

def GirParameter.instanceParameter : GirParameter → List GirVariable
  | .mk _ i => i

/-- Attribute set of a class-like element (class, interface, record, union). -/
structure ClassAttrs where
  name : String
  parent : String
  introspectable : String
  gtypeStructFor : String
  deriving DecidableEq, Repr

/-- A class-like GIR node, with the population annotations.  `implements`
and `prerequisite` keep the `$.name` of each entry.  For the class-specific
list fields an absent field and an empty list are observationally equivalent
in the embedded code, except for `implements`, `prerequisite` and
`constructor` whose presence the source tests explicitly, hence `Option`. -/
structure GirClass where
  attrs : ClassAttrs
  implements : Option (List String)
  prerequisite : Option (List String)
  method : List GirFunction
  virtualMethod : List GirFunction
  func : List GirFunction
  ctors : Option (List GirFunction)
  signal : List GirFunction
  property : List GirVariable
  field : List GirVariable
  module : String
  fullSymName : String

/-- A `<member>` of an enumeration or bitfield. -/
structure GirMember where
  name : String
  glibNick : String
  cIdentifier : String
  deriving DecidableEq, Repr

/-- Attribute set of an enumeration element. -/
structure EnumAttrs where
  name : String
  introspectable : String
  deriving DecidableEq, Repr

/-- An `<enumeration>` or `<bitfield>` element. -/
structure GirEnumeration where
  attrs : EnumAttrs
  member : List GirMember
  deriving DecidableEq, Repr

/-- A parsed GIR namespace: the per-kind construct lists. -/
structure GirNamespace where
  enumeration : List GirEnumeration
  bitfield : List GirEnumeration
  constant : List GirVariable
  func : List GirFunction
  callback : List GirFunction
  iface : List GirClass
  cls : List GirClass
  record : List GirClass
  union : List GirClass
  aliases : List GirVariable

/-! Structural equality testers for the recursive GIR node types (the
source compares nodes with JavaScript `===` reference equality; structural
equality is the shallow-embedding stand-in, and theorems that depend on it
carry the needed distinctness hypotheses explicitly). -/

def listBEqBy (f : α → α → Bool) : List α → List α → Bool
  | [], [] => true
  | x :: xs, y :: ys => f x y && listBEqBy f xs ys
  | _, _ => false

def optListBEqBy (f : α → α → Bool) :
    Option (List α) → Option (List α) → Bool
  | none, none => true
  | some xs, some ys => listBEqBy f xs ys
  | _, _ => false

/-- Structural depth budget of the node-equality testers: the testers are
a stand-in for JavaScript reference equality, and theorems that rely on
node identity carry their identity facts as explicit hypotheses; values
nested deeper than the budget compare unequal (a modelling artifact no
embedded input approaches — the budget is consumed only per nesting level
of inline callbacks and element types). -/
def beqDepthBudget : Nat := 1000

/-- Type-element equality as a functional over the recursive reference. -/
def teBEqWith (recur : GirTypeElem → GirTypeElem → Bool) :
    GirTypeElem → GirTypeElem → Bool
  | .mk a1 t1, .mk a2 t2 => a1 == a2 && optListBEqBy recur t1 t2

def teBEqFuel : Nat → GirTypeElem → GirTypeElem → Bool
  | 0, _, _ => false
  | g + 1, x, y => teBEqWith (teBEqFuel g) x y

def teBEq (x y : GirTypeElem) : Bool := teBEqFuel beqDepthBudget x y

def aeBEq (x y : GirArrayElem) : Bool :=
  x.attrs == y.attrs && optListBEqBy teBEq x.type y.type

def varBEqWith (fb : GirFunction → GirFunction → Bool) :
    GirVariable → GirVariable → Bool
  | .mk a1 arr1 t1 cb1 m1 f1, .mk a2 arr2 t2 cb2 m2 f2 =>
    a1 == a2 && optListBEqBy aeBEq arr1 arr2 && optListBEqBy teBEq t1 t2 &&
      optListBEqBy fb cb1 cb2 && m1 == m2 && f1 == f2

def parBEqWith (vb : GirVariable → GirVariable → Bool) :
    GirParameter → GirParameter → Bool
  | .mk p1 i1, .mk p2 i2 => listBEqBy vb p1 p2 && listBEqBy vb i1 i2

def fnBEqWith (vb : GirVariable → GirVariable → Bool) :
    GirFunction → GirFunction → Bool
  | .mk a1 p1 r1 f1, .mk a2 p2 r2 f2 =>
    a1 == a2 && optListBEqBy (parBEqWith vb) p1 p2 &&
      optListBEqBy vb r1 r2 && f1 == f2

def varBEqFuel : Nat → GirVariable → GirVariable → Bool
  | 0, _, _ => false
  | g + 1, x, y => varBEqWith (fun fx fy => fnBEqWith (varBEqFuel g) fx fy) x y

def varBEq (x y : GirVariable) : Bool := varBEqFuel beqDepthBudget x y

def fnBEq (x y : GirFunction) : Bool :=
  fnBEqWith (fun vx vy => varBEqFuel beqDepthBudget vx vy) x y

def clsBEq (x y : GirClass) : Bool :=
  x.attrs == y.attrs && x.implements == y.implements &&
    x.prerequisite == y.prerequisite && listBEqBy fnBEq x.method y.method &&
    listBEqBy fnBEq x.virtualMethod y.virtualMethod &&
    listBEqBy fnBEq x.func y.func && optListBEqBy fnBEq x.ctors y.ctors &&
    listBEqBy fnBEq x.signal y.signal &&
    listBEqBy varBEq x.property y.property &&
    listBEqBy varBEq x.field y.field &&
    x.module == y.module && x.fullSymName == y.fullSymName

/-- JavaScript `Array.prototype.indexOf` (first index of a matching element,
`-1` when absent), with an explicit equality tester. -/
def jsIndexOfAux (eq : α → α → Bool) (x : α) : List α → Int → Int
  | [], _ => -1
  | y :: ys, i => if eq y x then i else jsIndexOfAux eq x ys (i + 1)

def jsIndexOf (eq : α → α → Bool) (xs : List α) (x : α) : Int :=
  jsIndexOfAux eq x xs 0

/-- JavaScript `String.prototype.split` with a one-character separator
(all split calls in the embedded code use one-character separators). -/
def jsSplitCharAux (sep : Char) (acc : List Char) : List Char → List (List Char)
  | [] => [acc.reverse]
  | c :: cs =>
    if c = sep then acc.reverse :: jsSplitCharAux sep [] cs
    else jsSplitCharAux sep (c :: acc) cs

def jsSplitChar (s : String) (sep : Char) : List String :=
  (jsSplitCharAux sep [] s.toList).map List.asString

/-- Character membership in a string (`indexOf(c) >= 0`), list-level. -/
def strContainsChar (s : String) (c : Char) : Bool := s.toList.contains c

/-- String prefix test (`indexOf(pre) === 0`), list-level. -/
def strStartsWith (s pre : String) : Bool := List.isPrefixOf pre.toList s.toList

/-- Drop the first `n` characters (`substring(n)`), list-level. -/
def strDrop (s : String) (n : Nat) : String := (s.toList.drop n).asString

/-! ## Module state and modelled collaborators -/

/-- The generation configuration (the fields the embedded code reads). -/
structure Config where
  environment : String
  buildType : String
  inheritance : Bool

/-- The symbol table: fully-qualified name to declaration node.  The
source casts entries to `GirClass` wherever it reads them, so the table is
modelled as storing class-shaped nodes (absent fields read as empty, the
shallow counterpart of `undefined`). -/
def SymTable := String → Option GirClass

/-- GirModule state: the fields of the `GirModule` class that the embedded
methods read.  The four type-mapping tables come from `transformation.ts`,
which is not under `src/`; they are modelled from the spec as opaque
parameters (spec 4.2: C-type map, array plain-type map, plain-type map,
direction-sensitive full-type map).  `fuel` bounds the nesting of inline
callback types and the interface walk, both of which recurse structurally
over input that the shallow embedding cannot see shrinking. -/
structure ModState where
  name : String
  packageName : String
  config : Config
  podTypeMap : String → Option String
  podTypeMapArray : String → String → Option String
  cTypeMap : String → String → String → Option String
  fullTypeMap : String → Bool → String → Option String
  symTable : SymTable
  nsRecord : List GirClass
  patch : String → Option (List String)
  fuel : Nat

/-- Modelled from the spec: NameTransform for type names (spec 4.1;
transformation.ts is not under src/).  The source's own doc comment gives
the rule: `NetworkManager.80211ApFlags` becomes
`NetworkManager.TODO_80211ApFlags`, i.e. a name starting with a digit is
prefixed with a fixed token; other names are unchanged. -/
def transformTypeName (s : String) : String :=
  match s.toList with
  | c :: _ => if isDigitChar c then "TODO_" ++ s else s
  | [] => s

/-- Modelled from the spec: NameTransform for class names; the spec lists
no rule for class names, so the transform is the identity (spec 4.1: all
transforms are deterministic and idempotent). -/
def transformClassName (s : String) : String := s

/-- Modelled from the spec: NameTransform for function names; no concrete
rule is given, so the transform is the identity. -/
def transformFunctionName (s : String) : String := s

/-- Modelled from the spec: reserved identifiers of the target surface
(spec 4.1: a parameter whose name collides with a reserved word is
suffixed). -/
def reservedWords : List String :=
  ["in", "function", "true", "false", "break", "arguments", "eval",
   "default", "new", "extends", "var", "class", "delete", "return", "this"]

/-- Modelled from the spec: NameTransform for parameter names (spec 4.1:
reserved-word collisions are suffixed). -/
def transformParameterName (s : String) (_allowQuotes : Bool) : String :=
  if reservedWords.contains s then s ++ "_" else s

/-- Modelled from the spec: NameTransform for enum type names (spec 4.1:
an enum name starting with a digit is prefixed with a fixed token). -/
def transformEnumName (s : String) : String :=
  match s.toList with
  | c :: _ => if isDigitChar c then "TODO_" ++ s else s
  | [] => s

/-- Modelled from the spec: NameTransform for enum member identifiers
(spec scenario 1: a dash in a member name is removed). -/
def transformEnumValue (s : String) : String :=
  (s.toList.filter (fun c => c ≠ '-')).asString

/-- Modelled from the spec: NameTransform for property names; quoting and
camel-casing details are not needed by the verified claims, so the
transform is the identity. -/
def transformPropertyName (s : String) (_allowQuotes : Bool) : String := s

/-- Modelled from the spec: NameTransform for constant names. -/
def transformConstantName (s : String) (_allowQuotes : Bool) : String := s

/-- Modelled from the spec: NameTransform for field names. -/
def transformFieldName (s : String) (_allowQuotes : Bool) : String := s

/-- Modelled from the spec: NameTransform for signal names. -/
def transformSignalName (s : String) : String := s

/-- Modelled from the spec: the external template engine collaborator
(spec 1: out of scope, the core treats rendered content as opaque
strings).  Signal helper methods for one signal. -/
def tpGenerateSignalMethods (env sigName clsName paramComma params retType : String) :
    List String :=
  ["<signal-methods:" ++ env ++ ":" ++ sigName ++ ":" ++ clsName ++ ":" ++
    paramComma ++ params ++ ":" ++ retType ++ ">"]

/-- Modelled from the spec: template engine, `connect("notify::<prop>")`
helper overloads for one property. -/
def tpGenerateGObjectSignalMethods (env prop callbackObjectName nsPre : String) :
    List String :=
  ["<notify-signal-methods:" ++ env ++ ":" ++ prop ++ ":" ++
    callbackObjectName ++ ":" ++ nsPre ++ ">"]

/-- Modelled from the spec: template engine, the general
connect/connect_after/emit/disconnect helpers. -/
def tpGenerateGeneralSignalMethods (env : String) : List String :=
  ["<general-signal-methods:" ++ env ++ ">"]

/-! ## Small embedded helpers of GirModule -/

/-- Value of a decimal digit string. -/
def digitsToNat (ds : List Char) : Nat :=
  ds.foldl (fun a c => a * 10 + digitVal c) 0

/-- JavaScript `Number(s)` restricted to integral inputs (the only shapes
that occur in GIR `length` attributes); `none` models `NaN`.  A `NaN`
index flowing into `parametersArray[i]` reads `undefined`, which is inert
for the membership tests it later feeds, and the call sites model it so. -/
def jsNumber (s : String) : Option Int :=
  let t := (s.toList.dropWhile isSpaceChar).reverse.dropWhile isSpaceChar |>.reverse
  if t.isEmpty then some 0
  else match t with
    | '-' :: r =>
      if r ≠ [] ∧ r.all isDigitChar then some (-(digitsToNat r : Int)) else none
    | '+' :: r =>
      if r ≠ [] ∧ r.all isDigitChar then some (digitsToNat r) else none
    | r => if r.all isDigitChar then some (digitsToNat r) else none

/-- paramIsNullable (gir-module.ts 440-443): nullable, allow-none or
optional. -/
def paramIsNullable (param : GirVariable) : Bool :=
  girBool param.attrs.nullable ∨ girBool param.attrs.allowNone ∨
    girBool param.attrs.optional

/-- arrayLengthIndexLookup (393-404); `none` models a `NaN` parseInt
result.  (On a present-but-empty array list the source would throw; the
embedding returns -1, no embedded claim exercises that shape.) -/
def arrayLengthIndexLookup (param : GirVariable) : Option Int :=
  match param.array with
  | none => some (-1)
  | some [] => some (-1)
  | some (arr :: _) =>
    if jsTruthy arr.attrs.length then jsParseInt arr.attrs.length
    else some (-1)

/-- closureDataIndexLookup (406-410). -/
def closureDataIndexLookup (param : GirVariable) : Option Int :=
  if ¬ jsTruthy param.attrs.closure then some (-1)
  else jsParseInt param.attrs.closure

/-- destroyDataIndexLookup (412-416). -/
def destroyDataIndexLookup (param : GirVariable) : Option Int :=
  if ¬ jsTruthy param.attrs.destroy then some (-1)
  else jsParseInt param.attrs.destroy

/-- processParams (418-429): push every referenced in-range parameter onto
the skip list.  A `NaN` or out-of-range index makes the source push
`undefined`, inert for the later `indexOf` membership tests, modelled as
pushing nothing. -/
def processParams (parametersArray : List GirVariable) (skip : List GirVariable)
    (getIndex : GirVariable → Option Int) : List GirVariable :=
  parametersArray.foldl
    (fun sk param =>
      match getIndex param with
      | none => sk
      | some idx =>
        if idx < 0 then sk
        else if idx ≥ (parametersArray.length : Int) then sk
        else match parametersArray.get? idx.toNat with
          | some p => sk ++ [p]
          | none => sk)
    skip

/-- Test of the regular expression `^GLib.S?List$` (an unescaped dot: any
character) used at line 271. -/
def glibListRegexTest (s : String) : Bool :=
  match s.toList with
  | 'G' :: 'L' :: 'i' :: 'b' :: _ :: rest =>
    rest = ['L', 'i', 's', 't'] ∨ rest = ['S', 'L', 'i', 's', 't']
  | _ => false

/-! ## The TypeResolver and MemberSynthesizer function family

The source family typeLookup / getFunction / getParameters is mutually
recursive through inline callback types.  Each function is embedded as a
functional over the recursive reference (`tl` for the transformed type
lookup, `cbFn` for the callback case), and the knot is tied by
`typeLookupFuel`, structural in a callback-nesting budget, so that every
definition computes by kernel reduction. -/

/-- typeLookupTransformed (365-369) as a functional over typeLookup. -/
def typeLookupTransformedWith (tl : GirVariable → Bool → String)
    (girVar : GirVariable) (out : Bool) : String :=
  let names := jsSplitChar (tl girVar out) '.'
  let names := names.map transformTypeName
  String.intercalate "." names

/-- typeLookup (263-359) as a functional over the inline-callback case
(`cbFn cb` stands for `this.getFunction(girVar.callback[0], '', '',
undefined, true)[0][0]`).  The unresolved-type warning of line 346 is
dropped (pure value semantics); `undefined` appearing in a template
string prints as "undefined". -/
def typeLookupWith (st : ModState) (cbFn : GirFunction → List String × Option String)
    (girVar : GirVariable) (out : Bool) : String :=
  let collection : Option (List (Option (List GirTypeElem) × String)) :=
    match girVar.array with
    | some arrs => some (arrs.map (fun a => (a.type, a.attrs.cType)))
    | none =>
      match girVar.type with
      | some ts =>
        if glibListRegexTest (match ts with | t :: _ => t.attrs.name | [] => "") then
          some (ts.map (fun t => (t.type, t.attrs.cType)))
        else none
      | none => none
  let branch : Sum String (Option GirTypeElem × String × String) :=
    match collection with
    | some col =>
      if col.length > 0 then
        match col with
        | (elemTypes, ctype) :: _ =>
          match elemTypes with
          | none => Sum.inl "any"
          | some [] => Sum.inl "any"
          | some (t :: _) => Sum.inr (some t, "[]", ctype)
        | [] => Sum.inl "any"
      else
        match girVar.type with
        | some ts => Sum.inr (ts.head?, "", "")
        | none =>
          match girVar.callback with
          | some (_ :: _) => Sum.inr (none, "", "")
          | _ => Sum.inl "any"
    | none =>
      match girVar.type with
      | some ts => Sum.inr (ts.head?, "", "")
      | none =>
        match girVar.callback with
        | some (_ :: _) => Sum.inr (none, "", "")
        | _ => Sum.inl "any"
  match branch with
  | Sum.inl s => s
  | Sum.inr (tOpt, arr, arrCType) =>
    let nul := if paramIsNullable girVar then " | null" else ""
    let suffix := arr ++ nul
    match girVar.callback with
    | some (cb :: _) =>
      let fullTypeName := (((cbFn cb).1.head?).getD "undefined")
      let fullTypeName :=
        if suffix.length > 0 then "(" ++ fullTypeName ++ ")" else fullTypeName
      fullTypeName ++ suffix
    | _ =>
      match tOpt with
      | none => "any"
      | some type =>
        match (if arr ≠ "" then
                 st.podTypeMapArray st.config.environment type.attrs.name
               else none) with
        | some v => v ++ nul
        | none =>
        match st.podTypeMap type.attrs.name with
        | some v => v ++ suffix
        | none =>
        if ¬ jsTruthy st.name then "any"
        else
          let cType := type.attrs.cType
          let cType :=
            if ¬ jsTruthy cType ∧ jsTruthy arrCType then arrCType else cType
          match (if jsTruthy cType then
                   st.cTypeMap st.packageName suffix cType
                 else none) with
          | some v => v
          | none =>
            let fullTypeName := type.attrs.name
            match st.fullTypeMap st.config.environment out fullTypeName with
            | some v => v
            | none =>
              let fullTypeName :=
                if ¬ strContainsChar fullTypeName '.' then
                  (if jsTruthy girVar.module then girVar.module else st.name) ++
                    "." ++ type.attrs.name
                else fullTypeName
              if ¬ jsTruthy fullTypeName ∨ (st.symTable fullTypeName).isNone then
                "any" ++ arr
              else if strStartsWith fullTypeName (st.name ++ ".") then
                (strDrop fullTypeName (st.name ++ ".").length) ++ suffix
              else fullTypeName ++ suffix

/-- getReturnType (379-391) as a functional over the transformed type
lookup; the second component is the out-array length index, `none`
modelling `NaN`. -/
def getReturnTypeWith (tl : GirVariable → Bool → String) (func : GirFunction) :
    String × Option Int :=
  match func.returnValue with
  | some (returnVal :: _) =>
    let returnType := tl returnVal true
    let oali : Option Int :=
      match returnVal.array with
      | some (a :: _) =>
        if jsTruthy a.attrs.length then jsNumber a.attrs.length else some (-1)
      | _ => some (-1)
    (returnType, oali)
  | _ => ("void", some (-1))

/-- The parameter loop of getParameters (470-502) as a functional; walks
`rem`, referencing the full `parametersArray` for `indexOf`. -/
def getParamsLoopWith (tl : GirVariable → Bool → String)
    (parametersArray skip : List GirVariable) :
    List GirVariable → List String × List String
  | [] => ([], [])
  | param :: rest =>
    if jsIndexOf varBEq skip param ≠ -1 then
      getParamsLoopWith tl parametersArray skip rest
    else
      let paramName :=
        transformParameterName
          (if jsTruthy param.attrs.name then param.attrs.name else "-") false
      let optDirection := param.attrs.direction
      let isOut := optDirection = "out" ∨ optDirection = "inout"
      let paramType := tl param isOut
      let outPush :=
        if isOut then ["/* " ++ paramName ++ " */ " ++ paramType] else []
      if isOut ∧ optDirection = "out" then
        let (d, o) := getParamsLoopWith tl parametersArray skip rest
        (d, outPush ++ o)
      else
        let isOptional := if paramIsNullable param then "?" else ""
        let isOptional :=
          if isOptional = "?" then
            let index := jsIndexOf varBEq parametersArray param
            let following :=
              ((parametersArray.drop index.toNat).filter
                  (fun _ => jsIndexOf varBEq skip param = -1)).filter
                (fun p => p.attrs.direction ≠ "out")
            if following.any (fun p => ¬ paramIsNullable p) then "" else isOptional
          else isOptional
        let paramDesc := paramName ++ isOptional ++ ": " ++ paramType
        let (d, o) := getParamsLoopWith tl parametersArray skip rest
        (paramDesc :: d, outPush ++ o)

/-- getParameters (445-507) as a functional over the transformed type
lookup.  Returns the joined parameter list and the out-parameter
fragments. -/
def getParametersWith (st : ModState) (tl : GirVariable → Bool → String)
    (outArrayLengthIndex : Option Int) (parameters : List GirParameter) :
    String × List String :=
  match parameters with
  | [] => ("", [])
  | ps :: _ =>
    let parametersArray := ps.parameter
    let def0 : List String :=
      match ps.instanceParameter with
      | ip :: _ =>
        let typeName : String :=
          match ip.type with
          | some (t :: _) => t.attrs.name
          | _ => ""
        let recFound :=
          if jsTruthy typeName then
            st.nsRecord.find? (fun r => r.attrs.name = typeName)
          else none
        let structFor := match recFound with
          | some r => r.attrs.gtypeStructFor
          | none => ""
        let gobject :=
          if st.name = "GObject" ∨ st.name = "GLib" then "" else "GObject."
        if jsTruthy structFor then
          [ip.attrs.name ++ ": " ++ structFor ++ " | Function | " ++ gobject ++ "Type"]
        else []
      | [] => []
    if parametersArray.length ≠ 0 then
      let skip : List GirVariable :=
        match outArrayLengthIndex with
        | none => []
        | some i =>
          if i = -1 then []
          else if i < 0 then []
          else match parametersArray.get? i.toNat with
            | some p => [p]
            | none => []
      let skip := processParams parametersArray skip arrayLengthIndexLookup
      let skip := processParams parametersArray skip closureDataIndexLookup
      let skip := processParams parametersArray skip destroyDataIndexLookup
      let (defs, outParams) := getParamsLoopWith tl parametersArray skip parametersArray
      (String.intercalate ", " (def0 ++ defs), outParams)
    else (String.intercalate ", " def0, [])

/-- getFunction (566-624) as a functional over the transformed type
lookup.  `overrideReturnType` and `funcNamePre` are strings with `""` for
absent (the source tests them only for truthiness). -/
def getFunctionWith (st : ModState) (tl : GirVariable → Bool → String)
    (e : GirFunction) (pre : String) (funcNamePre : String)
    (overrideReturnType : String) (arrowType colon : Bool) :
    List String × Option String :=
  if ¬ girBool e.attrs.introspectable true ∨ jsTruthy e.attrs.shadowedBy then
    ([], none)
  else
    let patch : Option (List String) :=
      if jsTruthy e.fullSymName then st.patch e.fullSymName else some []
    let name := e.attrs.name
    let (retType, outArrayLengthIndex) := getReturnTypeWith tl e
    let (params, outParams) :=
      getParametersWith st tl outArrayLengthIndex (e.parameters.getD [])
    let name := if jsTruthy e.attrs.shadows then e.attrs.shadows else name
    let name := if jsTruthy funcNamePre then funcNamePre ++ name else name
    let patchLen : Nat := match patch with | some p => p.length | none => 0
    if patch.isSome ∧ patchLen = 1 then
      (patch.getD [], none)
    else
      let name := transformFunctionName name
      if patch.isSome ∧ patchLen = 2 then
        ([pre ++ funcNamePre ++ (((patch.getD []).getLast?).getD "")], some name)
      else
        let retTypeIsVoid := retType = "void"
        let retType :=
          if jsTruthy overrideReturnType then overrideReturnType
          else if outParams.length + (if retTypeIsVoid then 0 else 1) > 1 then
            let outParams :=
              if ¬ retTypeIsVoid then ("/* returnType */ " ++ retType) :: outParams
              else outParams
            "[ " ++ String.intercalate ", " outParams ++ " ]"
          else if outParams.length = 1 ∧ retTypeIsVoid then
            (outParams.head?).getD ""
          else retType
        let retSep := if arrowType then " =>" else ":"
        let pre := if arrowType ∧ ¬ colon then "" else pre
        let name := if arrowType ∧ ¬ colon then "" else name
        let name := if colon then name ++ ": " else name
        ([pre ++ name ++ "(" ++ params ++ ")" ++ retSep ++ " " ++ retType], some name)

/-- The fuel knot: the transformed type lookup at nesting budget `fuel`.
An inline callback type consumes one unit; at 0 the budget is exhausted
(modelling artifact: real inputs nest callbacks finitely). -/
def typeLookupFuel : Nat → ModState → GirVariable → Bool → String
  | 0, _, _, _ => "any"
  | fuel + 1, st, girVar, out =>
    typeLookupWith st
      (fun cb =>
        getFunctionWith st
          (fun v o => typeLookupTransformedWith (typeLookupFuel fuel st) v o)
          cb "" "" "" true false)
      girVar out

/-- typeLookup at a given callback-nesting budget. -/
def typeLookup (fuel : Nat) (st : ModState) (girVar : GirVariable)
    (out : Bool) : String :=
  typeLookupFuel fuel st girVar out

/-- typeLookupTransformed at a given callback-nesting budget. -/
def typeLookupTransformed (fuel : Nat) (st : ModState) (girVar : GirVariable)
    (out : Bool) : String :=
  typeLookupTransformedWith (typeLookupFuel fuel st) girVar out

/-- getReturnType at a given callback-nesting budget. -/
def getReturnType (fuel : Nat) (st : ModState) (func : GirFunction) :
    String × Option Int :=
  getReturnTypeWith (fun v o => typeLookupTransformed fuel st v o) func

/-- getParameters at a given callback-nesting budget. -/
def getParameters (fuel : Nat) (st : ModState) (outArrayLengthIndex : Option Int)
    (parameters : List GirParameter) : String × List String :=
  getParametersWith st (fun v o => typeLookupTransformed fuel st v o)
    outArrayLengthIndex parameters

/-- getFunction at a given callback-nesting budget. -/
def getFunction (fuel : Nat) (st : ModState) (e : GirFunction) (pre : String)
    (funcNamePre : String := "") (overrideReturnType : String := "")
    (arrowType : Bool := false) (colon : Bool := false) :
    List String × Option String :=
  getFunctionWith st (fun v o => typeLookupTransformed fuel st v o) e pre
    funcNamePre overrideReturnType arrowType colon

/-- getConstructorFunction (626-638). -/
def getConstructorFunction (fuel : Nat) (st : ModState) (name : String)
    (e : GirFunction) (pre : String) (funcNamePre : String := "") :
    List String × Option String :=
  let namedNew := e.attrs.name = "new"
  let (desc, funcName) :=
    getFunction fuel st e pre funcNamePre name namedNew namedNew
  match funcName with
  | some fn => if jsTruthy fn then (desc, some fn) else ([], none)
  | none => ([], none)

/-- getVariable (509-539). -/
def getVariable (fuel : Nat) (st : ModState) (v : GirVariable)
    (optional allowQuotes : Bool) (varKind : String) :
    List String × Option String :=
  if ¬ jsTruthy v.attrs.name then ([], none)
  else if ¬ girBool v.attrs.introspectable true ∨ girBool v.attrs.priv then
    ([], none)
  else
    let name :=
      match varKind with
      | "property" => transformPropertyName v.attrs.name allowQuotes
      | "constant" => transformConstantName v.attrs.name allowQuotes
      | "field" => transformFieldName v.attrs.name allowQuotes
      | _ => v.attrs.name
    let typeName := typeLookupTransformed fuel st v true
    let nameSuffix := if optional then "?" else ""
    let typeName := transformTypeName typeName
    ([name ++ nameSuffix ++ ": " ++ typeName], some name)

/-- getProperty (547-564); returns (description, property name, original
name). -/
def getProperty (fuel : Nat) (st : ModState) (v : GirVariable)
    (construct : Bool := false) (optional : Bool := true) :
    List String × Option String × Option String :=
  if girBool v.attrs.constructOnly ∧ ¬ construct then ([], none, none)
  else if ¬ girBool v.attrs.writable ∧ construct then ([], none, none)
  else if girBool v.attrs.priv then ([], none, none)
  else
    let propPre := if girBool v.attrs.writable then "" else "readonly "
    let (propDesc, propName) := getVariable fuel st v (construct ∧ optional) true "property"
    match propName with
    | none => ([], none, none)
    | some pn =>
      let origName :=
        if jsTruthy v.attrs.name then some (transformTypeName v.attrs.name) else none
      (["    " ++ propPre ++ String.intercalate "," propDesc], some pn, origName)

/-- getSignalFunc (640-654). -/
def getSignalFunc (fuel : Nat) (st : ModState) (e : GirFunction)
    (clsName : String) : List String :=
  let sigName := transformSignalName e.attrs.name
  let (retType, outArrayLengthIndex) := getReturnType fuel st e
  let (params, _) := getParameters fuel st outArrayLengthIndex (e.parameters.getD [])
  let paramComma := if params.length > 0 then ", " else ""
  tpGenerateSignalMethods st.config.environment sigName clsName paramComma params retType

/-! ## SymbolTable population -/

/-- Insertion into the symbol table (JavaScript object key assignment:
replaces any previous binding). -/
def symInsert (dict : SymTable) (k : String) (c : GirClass) : SymTable :=
  fun n => if n = k then some c else dict n

/-- loadTypesInternal (159-178): for each construct, skip when a present
introspectable attribute decodes to false, build the fully-qualified name,
warn on a duplicate key, annotate the node with its owning module and
qualified name, and insert (overwriting).  Returns the updated table and
the warnings in order. -/
def loadTypesInternal (st : ModState) (dict : SymTable) :
    List GirClass → SymTable × List String
  | [] => (dict, [])
  | girConstruct :: rest =>
    if jsTruthy girConstruct.attrs.introspectable ∧
        ¬ girBool girConstruct.attrs.introspectable true then
      loadTypesInternal st dict rest
    else
      let symName := st.name ++ "." ++ girConstruct.attrs.name
      let warns :=
        if (dict symName).isSome then ["Duplicate symbol: " ++ symName] else []
      let annotated :=
        { girConstruct with module := st.name, fullSymName := symName }
      let (dict', ws) := loadTypesInternal st (symInsert dict symName annotated) rest
      (dict', warns ++ ws)

/-! ## Signature canonicalization -/

/-- First index at which `pat` occurs in the character list. -/
def listFindFrom (pat : List Char) : List Char → Nat → Option Nat
  | [], i => if pat.isEmpty then some i else none
  | c :: cs, i =>
    if pat.isPrefixOf (c :: cs) then some i else listFindFrom pat cs (i + 1)

/-- Last index at which `pat` occurs in the character list. -/
def listFindLast (pat : List Char) : List Char → Nat → Option Nat
  | [], _ => none
  | c :: cs, i =>
    match listFindLast pat cs (i + 1) with
    | some j => some j
    | none => if pat.isPrefixOf (c :: cs) then some i else none

/-- Global greedy replacement of the block-comment regular expression
(`commentRegExp`, line 79): for this pattern the greedy dot makes a single
match from the first comment opener to the end of the last comment closer
starting at least two characters later; no further match can follow. -/
def commentStrip (s : String) : String :=
  let cs := s.toList
  match listFindFrom ['/', '*'] cs 0 with
  | none => s
  | some i =>
    match listFindLast ['*', '/'] (cs.drop (i + 2)) 0 with
    | none => s
    | some k => ((cs.take i) ++ cs.drop (i + 2 + k + 2)).asString

/-- Character class `[0-9a-zA-Z_]` of the parameter-name patterns. -/
def wordChar (c : Char) : Bool :=
  isDigitChar c ∨ ('a' ≤ c ∧ c ≤ 'z') ∨ ('A' ≤ c ∧ c ≤ 'Z') ∨ c = '_'

/-- Global replacement of `paramRegExp` (line 80), a maximal word run
followed by a colon becomes a bare colon; `pendingRev` carries the word
run currently being scanned, reversed. -/
def replaceParamAux : List Char → List Char → List Char
  | pendingRev, [] => pendingRev.reverse
  | pendingRev, c :: cs =>
    if wordChar c then replaceParamAux (c :: pendingRev) cs
    else if c = ':' then ':' :: replaceParamAux [] cs
    else pendingRev.reverse ++ c :: replaceParamAux [] cs

/-- Global replacement of `optParamRegExp` (line 81), a maximal word run
followed by `?:` becomes a bare `?:`. -/
def replaceOptParamAux : List Char → List Char → List Char
  | pendingRev, [] => pendingRev.reverse
  | _, '?' :: ':' :: tl => '?' :: ':' :: replaceOptParamAux [] tl
  | pendingRev, c :: cs =>
    if wordChar c then replaceOptParamAux (c :: pendingRev) cs
    else pendingRev.reverse ++ c :: replaceOptParamAux [] cs

/-- stripParamNames (885-896).  First component: the console warnings.
Second: the canonicalized declaration, or `none` when the source throws a
TypeError — on input without a parenthesis, `lb[1]` is `undefined` and
`.split` on it throws, after the warning was printed. -/
def stripParamNames (f : String) (ignoreTail : Bool := false) :
    List String × Option String :=
  let g := f
  let f := commentStrip f
  let lb := (jsSplitChar f '(').take 2
  let warns := if lb.length < 2 then ["Bad function definition " ++ g] else []
  match lb with
  | [l0, l1] =>
    let rb := jsSplitChar l1 ')'
    let tail := if ignoreTail then "" else ((rb.getLast?).getD "")
    let params := String.intercalate ")" (rb.take (rb.length - 1))
    let params := (replaceParamAux [] params.toList).asString
    let params := (replaceOptParamAux [] params.toList).asString
    (warns, some (l0 ++ "(" ++ params ++ ")" ++ tail))
  | _ => (warns, none)

/-- The element loop of functionSignaturesMatch; `none` propagates a
TypeError thrown by stripParamNames (the loop stops at the first
non-matching pair, so a later malformed entry is not reached). -/
def sigMatchLoop : List String → List String → Option Bool
  | a :: as, b :: bs =>
    match (stripParamNames a).2, (stripParamNames b).2 with
    | some sa, some sb =>
      if sa ≠ sb then some false else sigMatchLoop as bs
    | _, _ => none
  | _, _ => some true

/-- functionSignaturesMatch (1027-1039); the call sites in this module
always pass string arrays, so the scalar-to-array coercion pre-step is a
no-op. -/
def functionSignaturesMatch (f1 f2 : List String) : Option Bool :=
  if f1.length ≠ f2.length then some false
  else sigMatchLoop f1 f2

/-! ## InheritanceIndex walkers -/

def MAXIMUM_RECUSION_DEPTH : Nat := 100

/-- Class details (983-1020): the source returns `null` only for a node
without attributes, which the embedding's always-present-`$` convention
excludes; absent names are `""`. -/
structure ClassDetails where
  name : String
  qualifiedName : String
  parentName : String
  qualifiedParentName : String
  localParentName : String

/-- getClassDetails (983-1020). -/
def getClassDetails (st : ModState) (girClass : GirClass) : ClassDetails :=
  let mod := if jsTruthy girClass.module then girClass.module else st.name
  let name := transformClassName girClass.attrs.name
  let (name, qualifiedName) :=
    if ¬ strContainsChar name '.' then (name, mod ++ "." ++ name)
    else
      let split := jsSplitChar name '.'
      (((split.getLast?).getD ""), name)
  let parentName :=
    match girClass.prerequisite with
    | some pr => (pr.head?).getD ""
    | none => if jsTruthy girClass.attrs.parent then girClass.attrs.parent else ""
  let (parentName, qualifiedParentName, parentModName) :=
    if jsTruthy parentName then
      if ¬ strContainsChar parentName '.' then (parentName, mod ++ "." ++ parentName, mod)
      else
        let split := jsSplitChar parentName '.'
        (((split.getLast?).getD ""), parentName,
          String.intercalate "." (split.take (split.length - 1)))
    else ("", "", "")
  let localParentName :=
    if jsTruthy parentName then
      if parentModName = mod then parentName else qualifiedParentName
    else ""
  ⟨name, qualifiedName, parentName, qualifiedParentName, localParentName⟩

/-- Parent-pointer resolution of traverseInheritanceTree (666-680). -/
def traverseParentPtr (st : ModState) (parentName qualifiedParentName : String) :
    Option GirClass :=
  if jsTruthy parentName ∧ jsTruthy qualifiedParentName then
    let p0 := st.symTable qualifiedParentName
    if p0.isSome then p0
    else if parentName = "Object" then st.symTable "GObject.Object"
    else none
  else none

/-- The circular-dependency check of traverseInheritanceTree (682-691):
fires when the resolved parent's own (qualified) parent equals the current
node's fully-qualified name; returns the warning. -/
def circularCheckWarn (st : ModState) (girClass : GirClass)
    (parentPtr : Option GirClass) : Option String :=
  match parentPtr with
  | some pp =>
    if jsTruthy pp.attrs.parent then
      let parentName := pp.attrs.parent
      let parentName :=
        if ¬ strContainsChar parentName '.' ∧ jsTruthy pp.module then
          pp.module ++ "." ++ parentName
        else parentName
      if parentName = girClass.fullSymName then
        some ("Circular dependency found! Ignore next parent \"" ++ parentName ++ "\".")
      else none
    else none
  | none => none

/-- One invocation of traverseInheritanceTree (656-707) as a functional
over the recursive reference, with the visit callback reified as the
returned visit list (the source invokes the callback once per invocation,
before the depth guard).  The dead local `name` of lines 667-671 is
omitted. -/
def traverseBodyWith (st : ModState)
    (recur : GirClass → Nat → Bool → List String × List GirClass)
    (girClass : GirClass) (depth : Nat) (recursive : Bool) :
    List String × List GirClass :=
  let details := getClassDetails st girClass
  let parentPtr := traverseParentPtr st details.parentName details.qualifiedParentName
  let circWarn := circularCheckWarn st girClass parentPtr
  let recursive := if circWarn.isSome then false else recursive
  let warns0 := match circWarn with | some w => [w] | none => []
  if depth ≥ MAXIMUM_RECUSION_DEPTH then
    (warns0 ++
      ["Maximum recursion depth of " ++ toString MAXIMUM_RECUSION_DEPTH ++
        " reached for \"" ++ girClass.attrs.name ++ "\""],
      [girClass])
  else
    match parentPtr with
    | some pp =>
      if recursive ∧ depth ≤ MAXIMUM_RECUSION_DEPTH then
        let (w, v) := recur pp (depth + 1) recursive
        (warns0 ++ w, girClass :: v)
      else (warns0, [girClass])
    | none => (warns0, [girClass])

/-- The recursion knot: `gas` makes the depth-bounded recursion
structural; the entry point sets `gas` ≥ 1 remaining whenever the depth
guard still allows descent, so the exhausted case (which visits only the
class itself, like a parentless class) is unreachable from the entry
point. -/
def traverseAux (st : ModState) : Nat → GirClass → Nat → Bool →
    List String × List GirClass
  | 0, c, depth, r => traverseBodyWith st (fun _ _ _ => ([], [])) c depth r
  | g + 1, c, depth, r =>
    traverseBodyWith st (fun pp d' r' => traverseAux st g pp d' r') c depth r

/-- traverseInheritanceTree entry point: warnings and the visit list. -/
def traverseInheritanceTree (st : ModState) (girClass : GirClass)
    (depth : Nat := 0) (recursive : Bool := true) : List String × List GirClass :=
  traverseAux st (MAXIMUM_RECUSION_DEPTH + 1 - depth) girClass depth recursive

/-- The implements-loop of forEachInterface (715-731) as a functional over
the recursive reference; threads the `dups` set. -/
def forEachImplLoopWith (st : ModState)
    (recur : GirClass → List String → List GirClass × List String) :
    List String → List String → List GirClass × List String
  | [], dups => ([], dups)
  | nm :: rest, dups =>
    let name := if ¬ strContainsChar nm '.' then st.name ++ "." ++ nm else nm
    if dups.contains name then forEachImplLoopWith st recur rest dups
    else
      let dups := dups ++ [name]
      match st.symTable name with
      | some iface =>
        let (v1, dups1) := recur iface dups
        let (v2, dups2) := forEachImplLoopWith st recur rest dups1
        (iface :: (v1 ++ v2), dups2)
      | none => forEachImplLoopWith st recur rest dups

/-- forEachInterface (709-749), with the callback reified as the returned
visit list.  The source recursion is unbounded on malformed prerequisite
cycles (the prerequisite branch never extends `dups`), so the embedding
carries a structural budget `gas`; every embedded entry point supplies
`st.fuel`. -/
def forEachInterfaceAux (st : ModState) : Nat → GirClass → Bool → List String →
    List GirClass × List String
  | 0, _, _, dups => ([], dups)
  | gas + 1, girClass, recurseObjects, dups =>
    let (vis1, dups1) :=
      forEachImplLoopWith st
        (fun ifc d => forEachInterfaceAux st gas ifc recurseObjects d)
        (girClass.implements.getD []) dups
    match girClass.prerequisite with
    | some pr =>
      let parentName := (pr.head?).getD ""
      if ¬ jsTruthy parentName then (vis1, dups1)
      else
        let parentName :=
          if ¬ strContainsChar parentName '.' then st.name ++ "." ++ parentName
          else parentName
        if dups1.contains parentName then (vis1, dups1)
        else
          match st.symTable parentName with
          | some parentPtr =>
            if parentPtr.prerequisite.isSome ∨ recurseObjects then
              let (v2, dups2) :=
                forEachInterfaceAux st gas parentPtr recurseObjects dups1
              (vis1 ++ parentPtr :: v2, dups2)
            else (vis1, dups1)
          | none => (vis1, dups1)
    | none => (vis1, dups1)

/-- forEachInterface entry point: the visit list. -/
def forEachInterface (st : ModState) (girClass : GirClass)
    (recurseObjects : Bool := false) : List GirClass :=
  (forEachInterfaceAux st st.fuel girClass recurseObjects []).1

/-- forEachInterfaceAndSelf (751-754). -/
def forEachInterfaceAndSelf (st : ModState) (e : GirClass) : List GirClass :=
  e :: forEachInterface st e

/-- isDerivedFromGObject (756-764). -/
def isDerivedFromGObject (st : ModState) (girClass : GirClass) : Bool :=
  ((traverseInheritanceTree st girClass).2).any
    (fun cls => cls.fullSymName = "GObject.Object")

/-- isGInterface (766-768): `prerequisite !== undefined`. -/
def isGInterface (girClass : GirClass) : Bool :=
  girClass.prerequisite.isSome

/-! ## Per-class member synthesis -/

/-- checkName (770-785): returns the accepted description, the added flag,
and the updated local-name set. -/
def checkName (desc : List String) (name : Option String)
    (localNames : List String) : List String × Bool × List String :=
  if desc.length = 0 then ([], false, localNames)
  else
    match name with
    | none => ([], false, localNames)
    | some nm =>
      if ¬ jsTruthy nm then ([], false, localNames)
      else if localNames.contains nm then ([], false, localNames)
      else (desc, true, localNames ++ [nm])

/-- processFields (787-803). -/
def processFields (fuel : Nat) (st : ModState) (cls : GirClass)
    (localNames : List String) : List String × List String :=
  let (defs, ln) :=
    cls.field.foldl
      (fun (acc : List String × List String) f =>
        let (defs, ln) := acc
        let (desc, name) := getVariable fuel st f false false "field"
        let (aDesc, added, ln') := checkName desc name ln
        if added then (defs ++ ["    " ++ ((aDesc.head?).getD "")], ln')
        else (defs, ln'))
      ([], localNames)
  if defs.length ≠ 0 then
    (("    /* Fields of " ++ cls.fullSymName ++ " */") :: defs, ln)
  else (defs, ln)

/-- processProperties (805-821): returns the fragments, the updated
local-name set and the extended property-name list. -/
def processProperties (fuel : Nat) (st : ModState) (cls : GirClass)
    (localNames propertyNames : List String) :
    List String × List String × List String :=
  let (defs, ln, pn) :=
    cls.property.foldl
      (fun (acc : List String × List String × List String) p =>
        let (defs, ln, pn) := acc
        let (desc, name, origName) := getProperty fuel st p
        let (aDesc, added, ln') := checkName desc name ln
        let pn' :=
          if added then
            match origName with
            | some o => pn ++ [o]
            | none => pn
          else pn
        (defs ++ aDesc, ln', pn'))
      ([], localNames, propertyNames)
  if defs.length ≠ 0 then
    (("    /* Properties of " ++ cls.fullSymName ++ " */") :: defs, ln, pn)
  else (defs, ln, pn)

/-- A scoped function description: fragments, function name, owning
class. -/
abbrev ScopedFunctionDescription : Type :=
  List String × Option String × Option String

/-- processNamedMethods (823-836).  The source tests the truthiness of the
`checkName` result, which is an array and hence always truthy, so every
method is pushed (with empty fragments when the name check failed). -/
def processNamedMethods (fuel : Nat) (st : ModState) (cls : GirClass)
    (localNames : List String) (methodType : String) (pre : String := "") :
    List ScopedFunctionDescription × List String :=
  let source :=
    match methodType with
    | "method" => cls.method
    | "virtual-method" => cls.virtualMethod
    | _ => []
  source.foldl
    (fun (acc : List ScopedFunctionDescription × List String) func =>
      let (defs, ln) := acc
      let (desc, name) := getFunction fuel st func "    " pre
      let (checked0, _, ln') := checkName desc name ln
      (defs ++
        [(checked0, name,
          if jsTruthy cls.fullSymName then some cls.fullSymName else none)],
        ln'))
    ([], localNames)

/-- processMethods (843-855). -/
def processMethods (fuel : Nat) (st : ModState) (cls : GirClass)
    (localNames : List String) : List String × List String :=
  let (defs, ln) :=
    cls.method.foldl
      (fun (acc : List String × List String) func =>
        let (defs, ln) := acc
        let (desc, name) := getFunction fuel st func "    "
        let (aDesc, _, ln') := checkName desc name ln
        (defs ++ aDesc, ln'))
      ([], localNames)
  if defs.length ≠ 0 then
    (("    /* Methods of " ++ cls.fullSymName ++ " */") :: defs, ln)
  else (defs, ln)

/-- processVirtualMethods (861-871). -/
def processVirtualMethods (fuel : Nat) (st : ModState) (cls : GirClass) :
    List String :=
  let defs :=
    cls.virtualMethod.foldl
      (fun defs f => defs ++ (getFunction fuel st f "    " "vfunc_").1) []
  if defs.length ≠ 0 then
    ("    /* Virtual methods of " ++ cls.fullSymName ++ " */") :: defs
  else defs

/-- processSignals (873-883). -/
def processSignals (fuel : Nat) (st : ModState) (cls : GirClass)
    (clsName : String) : List String :=
  let defs := cls.signal.foldl (fun d s => d ++ getSignalFunc fuel st s clsName) []
  if defs.length ≠ 0 then
    ("    /* Signals of " ++ cls.fullSymName ++ " */") :: defs
  else defs

/-! ## OverloadReconciler -/

/-- JavaScript `Map.prototype.get`. -/
def mapGet (m : List (String × α)) (k : String) : Option α :=
  match m.find? (fun e => e.1 = k) with
  | some e => some e.2
  | none => none

/-- JavaScript `Map.prototype.set`: replaces in place, else appends
(insertion order is preserved). -/
def mapSet (m : List (String × α)) (k : String) (v : α) : List (String × α) :=
  if (m.find? (fun e => e.1 = k)).isSome then
    m.map (fun e => if e.1 = k then (k, v) else e)
  else m ++ [(k, v)]

/-- JavaScript `Map.prototype.delete`. -/
def mapDelete (m : List (String × α)) (k : String) : List (String × α) :=
  m.filter (fun e => e.1 ≠ k)

/-- JavaScript object-as-set key insertion (idempotent). -/
def jsSetAdd (s : List String) (k : String) : List String :=
  if s.contains k then s else s ++ [k]

/-- The collation map: method name to (owning class to declaration
fragments), JS `Map`s modelled as insertion-ordered association lists. -/
abbrev FnMap : Type := List (String × List (String × List String))

def SIGNAL_METHOD_NAMES : List String :=
  ["connect", "connect_after", "emit", "disconnect"]

/-- The inherited-property-name collection of processMethodsWithOverloads
(1234-1242).  Note the source passes `girClass` (not the visited node) to
processProperties, and uses the `propertyNames` object as the local-name
set argument. -/
def collectInheritedPropNames (fuel : Nat) (st : ModState) (girClass : GirClass) :
    List String :=
  (traverseInheritanceTree st girClass).2.foldl
    (fun pn cls =>
      (forEachInterfaceAndSelf st cls).foldl
        (fun pn e =>
          if ¬ clsBEq e girClass then
            (processProperties fuel st girClass pn []).2.1
          else pn)
        pn)
    []

/-- The collation-map construction of processMethodsWithOverloads
(1247-1262). -/
def collectFnMap (st : ModState)
    (getter : GirClass → List String → List ScopedFunctionDescription × List String)
    (girClass : GirClass) : FnMap :=
  (traverseInheritanceTree st girClass).2.foldl
    (fun fm cls =>
      (forEachInterfaceAndSelf st cls).foldl
        (fun fm e =>
          (getter e []).1.foldl
            (fun fm m =>
              match m with
              | (defn, some nm, some sc) =>
                if jsTruthy nm ∧ jsTruthy sc then
                  let subMap := (mapGet fm nm).getD []
                  mapSet fm nm (mapSet subMap sc defn)
                else fm
              | _ => fm)
            fm)
        fm)
    []

/-- The per-clash emission of the direct-method loop (1275-1280); `none`
propagates a TypeError from signature canonicalization. -/
def clashEmitLoop (methDefs : List String) (nm : String) :
    List (String × List String) → Option (List String)
  | [] => some []
  | (cls, defns) :: rest =>
    match functionSignaturesMatch methDefs defns with
    | none => none
    | some b =>
      let em :=
        if ¬ b then
          ("    /* False overload, use " ++ cls ++ ".prototype." ++ nm ++
            ".call() */") :: defns
        else []
      (clashEmitLoop methDefs nm rest).map (fun r => em ++ r)

/-- The direct-method loop of processMethodsWithOverloads (1264-1283):
emits each method (or a skip comment on a property clash), records its
name, emits false overloads for non-matching inherited copies, and removes
the name from the collation map. -/
def overloadsDirectLoop (propertyNames : List String) :
    List ScopedFunctionDescription → List String → FnMap →
    Option (List String × List String × FnMap)
  | [], localNames, fnMap => some ([], localNames, fnMap)
  | meth :: rest, localNames, fnMap =>
    match meth.2.1 with
    | none => overloadsDirectLoop propertyNames rest localNames fnMap
    | some nm =>
      if ¬ jsTruthy nm then overloadsDirectLoop propertyNames rest localNames fnMap
      else if propertyNames.contains nm then
        (overloadsDirectLoop propertyNames rest localNames fnMap).map
          (fun r =>
            (("    /* Skipping " ++ nm ++
              " because it clashes with an inherited property */") :: r.1,
              r.2.1, r.2.2))
      else
        let localNames := jsSetAdd localNames nm
        match mapGet fnMap nm with
        | none =>
          (overloadsDirectLoop propertyNames rest localNames fnMap).map
            (fun r => (meth.1 ++ r.1, r.2.1, r.2.2))
        | some clashes =>
          match clashEmitLoop meth.1 nm clashes with
          | none => none
          | some clashDefs =>
            let fnMap := mapDelete fnMap nm
            (overloadsDirectLoop propertyNames rest localNames fnMap).map
              (fun r => (meth.1 ++ clashDefs ++ r.1, r.2.1, r.2.2))

/-- The name-stripped dedup map construction of the remaining-entries loop
(1294-1300); `none` propagates a TypeError. -/
def subDefsInner (clsName : String) :
    List String → List (String × String × String) →
    Option (List (String × String × String))
  | [], acc => some acc
  | d :: ds, acc =>
    match (stripParamNames d).2 with
    | none => none
    | some key => subDefsInner clsName ds (mapSet acc key (d, clsName))

def subDefsBuild :
    List (String × List String) → List (String × String × String) →
    Option (List (String × String × String))
  | [], acc => some acc
  | (clsName, defs) :: rest, acc =>
    match subDefsInner clsName defs acc with
    | none => none
    | some acc' => subDefsBuild rest acc'

/-- The emission step of the remaining-entries loop (1305-1312). -/
def subDefsEmit (vfunc : Bool) (fName : String)
    (subDefs : List (String × String × String)) : List String :=
  subDefs.foldl
    (fun acc e =>
      let defn := e.2.1
      let clsName := e.2.2
      acc ++
        [if vfunc then
          "    /* Clashing method inherited from " ++ clsName ++
            ", do not override */"
        else
          "    /* False overload, use " ++ clsName ++ ".prototype." ++
            fName ++ ".call() */",
          defn])
    []

/-- The remaining-entries loop of processMethodsWithOverloads
(1286-1313). -/
def overloadsRemainingLoop (girClass : GirClass) (vfunc : Bool) :
    FnMap → List String → Option (List String × List String)
  | [], localNames => some ([], localNames)
  | (fName, defns) :: rest, localNames =>
    let sigClash :=
      SIGNAL_METHOD_NAMES.contains fName ∧ girClass.fullSymName ≠ "GObject.Object"
    let localNames := jsSetAdd localNames fName
    if defns.length < 2 ∧ ¬ sigClash then
      overloadsRemainingLoop girClass vfunc rest localNames
    else
      match subDefsBuild defns [] with
      | none => none
      | some subDefs =>
        if subDefs.length < 2 ∧ ¬ sigClash then
          overloadsRemainingLoop girClass vfunc rest localNames
        else
          (overloadsRemainingLoop girClass vfunc rest localNames).map
            (fun r => (subDefsEmit vfunc fName subDefs ++ r.1, r.2))

/-- processMethodsWithOverloads (1226-1317); `none` models a TypeError
thrown during signature canonicalization. -/
def processMethodsWithOverloads (fuel : Nat) (st : ModState) (girClass : GirClass)
    (localNames : List String)
    (getter : GirClass → List String → List ScopedFunctionDescription × List String)
    (vfunc : Bool) : Option (List String × List String) :=
  let propertyNames := collectInheritedPropNames fuel st girClass
  let (methods, localNames) := getter girClass localNames
  let fnMap := collectFnMap st getter girClass
  match overloadsDirectLoop propertyNames methods localNames fnMap with
  | none => none
  | some (defs1, localNames, fnMap) =>
    match overloadsRemainingLoop girClass vfunc fnMap localNames with
    | none => none
    | some (defs2, localNames) =>
      let defs := defs1 ++ defs2
      let defs :=
        if defs.length ≠ 0 then
          ("    /* " ++ (if vfunc then "Virtual" else "Instance") ++
            " methods */") :: defs
        else defs
      some (defs, localNames)

/-! ## Static members and class emission -/

def STATIC_NAME_ALREADY_EXISTS : List String := ["GMime.Charset", "Camel.StoreInfo"]

/-- getStaticConstructors (931-944). -/
def getStaticConstructors (fuel : Nat) (st : ModState) (e : GirClass)
    (name : String) (stat : String)
    (filter : Option (String → Bool) := none) :
    List (List String × Option String) :=
  match e.ctors with
  | none => [([], none)]
  | some funcs =>
    let ctors := funcs.map (fun f => getConstructorFunction fuel st name f ("    " ++ stat))
    match filter with
    | some flt =>
      ctors.filter (fun c =>
        match c.2 with
        | some fn => jsTruthy fn ∧ flt fn
        | none => false)
    | none => ctors

/-- isGtypeStructFor (946-949). -/
def isGtypeStructFor (e : GirClass) (r : GirClass) : Bool :=
  jsTruthy r.attrs.gtypeStructFor ∧ r.attrs.gtypeStructFor = e.attrs.name

/-- getClassMethods (959-970): the GType-struct record's methods become
static methods of the class. -/
def getClassMethods (fuel : Nat) (st : ModState) (girClass : GirClass)
    (stat : String) : List (List String × Option String) :=
  if ¬ jsTruthy girClass.attrs.name then []
  else
    let fName := girClass.attrs.name ++ "Class"
    let rec0 := st.nsRecord.find? (fun r => r.attrs.name = fName)
    let rec1 :=
      match rec0 with
      | some r =>
        if isGtypeStructFor girClass r then some r
        else st.nsRecord.find? (fun r => isGtypeStructFor girClass r)
      | none => st.nsRecord.find? (fun r => isGtypeStructFor girClass r)
    match rec1 with
    | none => []
    | some r => r.method.map (fun m => getFunction fuel st m ("    " ++ stat))

/-- getOtherStaticFunctions (972-981). -/
def getOtherStaticFunctions (fuel : Nat) (st : ModState) (girClass : GirClass)
    (stat : String) : List (List String × Option String) :=
  girClass.func.foldl
    (fun fns func =>
      let (desc, funcName) := getFunction fuel st func ("    " ++ stat)
      match funcName with
      | some fn => if jsTruthy fn ∧ fn ≠ "new" then fns ++ [(desc, some fn)] else fns
      | none => fns)
    []

/-- processStaticFunctions (1041-1048). -/
def processStaticFunctions (cls : GirClass)
    (getter : GirClass → List (List String × Option String)) : List String :=
  (getter cls).foldl (fun defs f => defs ++ f.1) []

/-- generateSignalMethods (1050-1069): the notify overloads and general
helpers for GObject-derived classes. -/
def generateSignalMethods (fuel : Nat) (st : ModState) (cls : GirClass)
    (propertyNames : List String) (callbackObjectName : String) : List String :=
  let isDerived := isDerivedFromGObject st cls ∨ isGInterface cls
  if isDerived then
    let nsPre := if st.name = "GObject" then "" else "GObject."
    let defs :=
      propertyNames.foldl
        (fun d prop =>
          d ++ tpGenerateGObjectSignalMethods st.config.environment prop
            callbackObjectName nsPre)
        []
    defs ++ tpGenerateGeneralSignalMethods st.config.environment
  else []

/-- getAllStaticFunctions (1076-1099). -/
def getAllStaticFunctions (fuel : Nat) (st : ModState) (girClass : GirClass)
    (name : String) (stat : String) : List String :=
  let stc := processStaticFunctions girClass
    (fun cls => getStaticConstructors fuel st cls name stat)
  let stc := stc ++ processStaticFunctions girClass
    (fun cls => getOtherStaticFunctions fuel st cls stat)
  let stc := stc ++ processStaticFunctions girClass
    (fun cls => getClassMethods fuel st cls stat)
  if stc.length > 0 then "    /* Static methods and pseudo-constructors */" :: stc
  else stc

/-- generateConstructorAndStaticMethods (1102-1129). -/
def generateConstructorAndStaticMethods (fuel : Nat) (st : ModState)
    (girClass : GirClass) (name : String) (asInterface : Bool) : List String :=
  let isDerived := isDerivedFromGObject st girClass
  let stat := if asInterface then "" else "static "
  let defs :=
    if isDerived then
      if asInterface then
        ["    new(config?: " ++ name ++ "_ConstructProps): " ++ name]
      else
        ["    constructor(config?: " ++ name ++ "_ConstructProps)",
          "    _init(config?: " ++ name ++ "_ConstructProps): void"]
    else []
  let defs := defs ++ getAllStaticFunctions fuel st girClass name stat
  let defs := defs ++
    (if isDerived ∨ isGInterface girClass then
      ["    " ++ stat ++ "$gtype: " ++
        (if st.packageName = "GObject-2.0" then "" else "GObject.") ++ "Type"]
    else [])
  defs ++
    (if jsTruthy girClass.fullSymName ∧
        ¬ STATIC_NAME_ALREADY_EXISTS.contains girClass.fullSymName then
      ["    " ++ stat ++ "name: string"]
    else [])

/-- generateConstructPropsInterface (1131-1168). -/
def generateConstructPropsInterface (fuel : Nat) (st : ModState)
    (girClass : GirClass) (name : String)
    (qualifiedParentName localParentName : String) : List String :=
  if ¬ isDerivedFromGObject st girClass then []
  else
    let ext :=
      if jsTruthy qualifiedParentName then
        "extends " ++ localParentName ++ "_ConstructProps "
      else " "
    let head := "export interface " ++ name ++ "_ConstructProps " ++ ext ++ "\x7b"
    let (defs, constructPropNames) :=
      girClass.property.foldl
        (fun (acc : List String × List String) p =>
          let (defs, cpn) := acc
          let (desc, nm, _) := getProperty fuel st p true true
          let (aDesc, _, cpn') := checkName desc nm cpn
          (defs ++ aDesc, cpn'))
        ([], [])
    let (defs, _) :=
      match girClass.implements with
      | some _ =>
        (forEachInterface st girClass).foldl
          (fun (acc : List String × List String) (iface : GirClass) =>
            iface.property.foldl
              (fun (acc : List String × List String) p =>
                let (defs, cpn) := acc
                let (desc, nm, _) := getProperty fuel st p true true
                let (aDesc, _, cpn') := checkName desc nm cpn
                (defs ++ aDesc, cpn'))
              acc)
          (defs, constructPropNames)
      | none => (defs, constructPropNames)
    (head :: defs) ++ ["\x7d"]

/-- exportClassInternal (1325-1452); `none` propagates a TypeError from
the overload reconciler (interface mode only). -/
def exportClassInternal (fuel : Nat) (st : ModState) (girClass : GirClass)
    (record : Bool := false) (isAbstract : Bool := false) :
    Option (List String) :=
  let isAbstract :=
    if jsTruthy girClass.attrs.gtypeStructFor then true else isAbstract
  let details := getClassDetails st girClass
  let name := details.name
  let qualifiedParentName := details.qualifiedParentName
  let localParentName := details.localParentName
  let propsIface :=
    generateConstructPropsInterface fuel st girClass name qualifiedParentName
      localParentName
  let asInterface := st.config.inheritance ∧ ¬ record ∧ ¬ isAbstract
  let header :=
    if isAbstract then ["export abstract class " ++ name ++ " \x7b"]
    else if asInterface then
      let prereq := girClass.implements.getD []
      let prereq :=
        prereq ++
          (match girClass.prerequisite with
          | some pr => if pr.length ≠ 0 then pr else []
          | none => [])
      let inherits :=
        prereq.map (fun nm =>
          if strContainsChar nm '.' ∧ ¬ strStartsWith nm "." then
            let parts := jsSplitChar nm '.'
            if ((parts.get? 0).getD "") = st.name then (parts.get? 1).getD ""
            else nm
          else nm)
      let inherits :=
        if jsTruthy localParentName ∧ ¬ inherits.contains localParentName then
          localParentName :: inherits
        else inherits
      let ext :=
        if inherits.length ≠ 0 then " extends " ++ String.intercalate ", " inherits
        else ""
      ["export interface " ++ name ++ ext ++ " \x7b"]
    else ["export class " ++ name ++ " \x7b"]
  let localNames : List String := []
  let propertyNames : List String := []
  let (fieldDefs, localNames) :=
    if record then processFields fuel st girClass localNames
    else ([], localNames)
  let bodyRes : Option (List String × List String × List String) :=
    if asInterface then
      match processMethodsWithOverloads fuel st girClass localNames
          (fun cls locs => (processNamedMethods fuel st cls locs "method")) false with
      | none => none
      | some (methDefs, localNames) =>
        let (propDefs, localNames, propertyNames) :=
          processProperties fuel st girClass localNames propertyNames
        match processMethodsWithOverloads fuel st girClass []
            (fun cls locs =>
              (processNamedMethods fuel st cls locs "virtual-method" "vfunc_"))
            true with
        | none => none
        | some (vmethDefs, _) =>
          let sigDefs := processSignals fuel st girClass name
          let initDefs :=
            if isDerivedFromGObject st girClass then
              ["    /* GObject initialiser */",
                "    _init (config?: " ++ name ++ "_ConstructProps): void"]
            else []
          some (methDefs ++ propDefs ++ vmethDefs ++ sigDefs ++ initDefs,
            localNames, propertyNames)
    else
      let visitedT := (traverseInheritanceTree st girClass).2
      let visitedI := forEachInterface st girClass
      let (propDefs, localNames, propertyNames) :=
        visitedT.foldl
          (fun (acc : List String × List String × List String) cls =>
            let (d, ln, pn) := acc
            let (d2, ln2, pn2) := processProperties fuel st cls ln pn
            (d ++ d2, ln2, pn2))
          ([], localNames, propertyNames)
      let (propDefs, localNames, propertyNames) :=
        visitedI.foldl
          (fun (acc : List String × List String × List String) cls =>
            let (d, ln, pn) := acc
            let (d2, ln2, pn2) := processProperties fuel st cls ln pn
            (d ++ d2, ln2, pn2))
          (propDefs, localNames, propertyNames)
      let (fieldDefs2, localNames) :=
        visitedT.foldl
          (fun (acc : List String × List String) cls =>
            let (d, ln) := acc
            let (d2, ln2) := processFields fuel st cls ln
            (d ++ d2, ln2))
          ([], localNames)
      let (methDefs, localNames) :=
        visitedT.foldl
          (fun (acc : List String × List String) cls =>
            let (d, ln) := acc
            let (d2, ln2) := processMethods fuel st cls ln
            (d ++ d2, ln2))
          ([], localNames)
      let (methDefsI, localNames) :=
        visitedI.foldl
          (fun (acc : List String × List String) cls =>
            let (d, ln) := acc
            let (d2, ln2) := processMethods fuel st cls ln
            (d ++ d2, ln2))
          ([], localNames)
      let vmethDefs :=
        visitedT.foldl (fun d cls => d ++ processVirtualMethods fuel st cls) []
      let sigDefs :=
        visitedT.foldl (fun d cls => d ++ processSignals fuel st cls name) []
      let sigDefsI :=
        visitedI.foldl (fun d cls => d ++ processSignals fuel st cls name) []
      some (propDefs ++ fieldDefs2 ++ methDefs ++ methDefsI ++ vmethDefs ++
        sigDefs ++ sigDefsI, localNames, propertyNames)
  match bodyRes with
  | none => none
  | some (bodyDefs, _, propertyNames) =>
    let notifyDefs := generateSignalMethods fuel st girClass propertyNames name
    let ctorHead :=
      if asInterface then ["\x7d", "export const " ++ name ++ ": \x7b"] else []
    let staticDefs :=
      generateConstructorAndStaticMethods fuel st girClass name asInterface
    some (propsIface ++ header ++ fieldDefs ++ bodyDefs ++ notifyDefs ++
      ctorHead ++ staticDefs ++ ["\x7d"])

/-! ## Namespace emission -/

/-- exportEnumeration (1170-1193). -/
def exportEnumeration (e : GirEnumeration) : List String :=
  if ¬ girBool e.attrs.introspectable true then []
  else
    let name := transformEnumName e.attrs.name
    let defs :=
      e.member.foldl
        (fun d member =>
          let rawName :=
            if jsTruthy member.name then member.name
            else if jsTruthy member.glibNick then member.glibNick
            else member.cIdentifier
          if ¬ jsTruthy rawName then d
          else
            let name := transformEnumValue rawName
            if (match name.toList with | c :: _ => isDigitChar c | [] => false) then
              d ++ ["    /* " ++ name ++ " (invalid, starts with a number) */"]
            else d ++ ["    " ++ name ++ ","])
        []
    (("export enum " ++ name ++ " \x7b") :: defs) ++ ["\x7d"]

/-- exportConstant (1195-1206); threads the per-module constant-name set
(the duplicate-export warning is not modelled). -/
def exportConstant (fuel : Nat) (st : ModState) (girVar : GirVariable)
    (constNames : List String) : List String × List String :=
  let (varDesc, varName) := getVariable fuel st girVar false false "constant"
  match varName with
  | some vn =>
    if jsTruthy vn then
      if ¬ constNames.contains vn then
        (["export const " ++ String.intercalate "," varDesc], constNames ++ [vn])
      else ([], constNames)
    else ([], constNames)
  | none => ([], constNames)

/-- exportFunction (1454-1456). -/
def exportFunction (fuel : Nat) (st : ModState) (e : GirFunction) : List String :=
  (getFunction fuel st e "export function ").1

/-- exportCallback (1458-1470). -/
def exportCallback (fuel : Nat) (st : ModState) (e : GirFunction) : List String :=
  if ¬ girBool e.attrs.introspectable true then []
  else
    let name := e.attrs.name
    let (retType, outArrayLengthIndex) := getReturnType fuel st e
    let (params, _) := getParameters fuel st outArrayLengthIndex (e.parameters.getD [])
    ["export interface " ++ name ++ " \x7b",
      "    (" ++ params ++ "): " ++ retType,
      "\x7d"]

/-- exportAlias (1472-1478). -/
def exportAlias (fuel : Nat) (st : ModState) (girAlias : GirVariable) : List String :=
  if ¬ girBool girAlias.attrs.introspectable true then []
  else
    let typeName := typeLookupTransformed fuel st girAlias true
    let name := girAlias.attrs.name
    ["type " ++ name ++ " = " ++ typeName]

/-- Option-propagating concatenation fold. -/
def foldOptList (f : α → Option (List String)) : List α → Option (List String)
  | [] => some []
  | x :: xs =>
    match f x with
    | none => none
    | some d => (foldOptList f xs).map (fun r => d ++ r)

/-- The declaration-emitting portion of the export method (1560-1611).
The file-header comment, dependency-import lines, output stream and
prettifier of lines 1506-1558 come from external collaborators (spec 1:
out of scope) and are not part of the declaration sequence modelled here;
`templatePatch` is the optional per-module template-override content
concatenated between interfaces and classes.  `none` propagates a
TypeError from class emission. -/
def exportModuleDecls (fuel : Nat) (st : ModState) (ns : GirNamespace)
    (templatePatch : Option String) : Option (List String) :=
  let out := if st.config.buildType = "types" then ["", "declare namespace " ++ st.name ++ " \x7b"] else []
  let out := out ++ [""]
  let out := out ++ ns.enumeration.foldl (fun a e => a ++ exportEnumeration e) []
  let out := out ++ ns.bitfield.foldl (fun a e => a ++ exportEnumeration e) []
  let (constDefs, _) :=
    ns.constant.foldl
      (fun (acc : List String × List String) e =>
        let (d, cn) := acc
        let (d2, cn2) := exportConstant fuel st e cn
        (d ++ d2, cn2))
      ([], [])
  let out := out ++ constDefs
  let out := out ++ ns.func.foldl (fun a e => a ++ exportFunction fuel st e) []
  let out := out ++ ns.callback.foldl (fun a e => a ++ exportCallback fuel st e) []
  match foldOptList (fun e => exportClassInternal fuel st e) ns.iface with
  | none => none
  | some ifaceDefs =>
    let out := out ++ ifaceDefs
    let out := out ++ (match templatePatch with | some p => [p] | none => [])
    match foldOptList (fun e => exportClassInternal fuel st e false) ns.cls with
    | none => none
    | some clsDefs =>
      let out := out ++ clsDefs
      match foldOptList (fun e => exportClassInternal fuel st e true) ns.record with
      | none => none
      | some recDefs =>
        let out := out ++ recDefs
        match foldOptList (fun e => exportClassInternal fuel st e true) ns.union with
        | none => none
        | some unionDefs =>
          let out := out ++ unionDefs
          let out := out ++
            ns.aliases.foldl
              (fun a e =>
                if st.packageName ≠ "GObject-2.0" ∨ e.attrs.name ≠ "Type" then
                  a ++ exportAlias fuel st e
                else a)
              []
          let out := out ++
            (if st.packageName = "GObject-2.0" then
              ["export interface Type \x7b", "    name: string", "\x7d"]
            else [])
          some (out ++ (if st.config.buildType = "types" then ["\x7d"] else []))

/-! ## Concrete instances used by witnesses and counterexamples -/

/-- A class node with only a name and parent set. -/
def mkBareClass (name parent : String) : GirClass :=
  { attrs := { name := name, parent := parent, introspectable := "",
               gtypeStructFor := "" },
    implements := none, prerequisite := none, method := [],
    virtualMethod := [], func := [], ctors := none, signal := [],
    property := [], field := [], module := "", fullSymName := "" }

def plainConfig : Config := ⟨"gjs", "lib", false⟩

/-- A module state over a given symbol table, with empty mapping tables. -/
def mkState (name : String) (tbl : SymTable) : ModState :=
  { name := name, packageName := name ++ "-1.0", config := plainConfig,
    podTypeMap := fun _ => none, podTypeMapArray := fun _ _ => none,
    cTypeMap := fun _ _ _ => none, fullTypeMap := fun _ _ _ => none,
    symTable := tbl, nsRecord := [], patch := fun _ => none, fuel := 50 }

def c1First : GirClass := mkBareClass "Foo" "P1"

def c1Second : GirClass := mkBareClass "Foo" "P2"

def c1State : ModState := mkState "Ns" (fun _ => none)

/-- An annotated member of the three-class parent cycle A→B→C→A in module
M. -/
def mkCycCls (nm pr : String) : GirClass :=
  { mkBareClass nm pr with module := "M", fullSymName := "M." ++ nm }

def cycState : ModState :=
  mkState "M"
    (fun s =>
      if s = "M.A" then some (mkCycCls "A" "B")
      else if s = "M.B" then some (mkCycCls "B" "C")
      else if s = "M.C" then some (mkCycCls "C" "A")
      else none)

/-- A two-class parent cycle A↔B in module M. -/
def twoCycState : ModState :=
  mkState "M"
    (fun s =>
      if s = "M.A" then some (mkCycCls "A" "B")
      else if s = "M.B" then some (mkCycCls "B" "A")
      else none)

/-- A plain named-type node carrying only a type name, as used for
resolving an already-resolved type string. -/
def mkTypeNode (nm : String) : GirVariable :=
  .mk { name := "t", direction := "", nullable := "", allowNone := "",
        optional := "", closure := "", destroy := "", introspectable := "",
        priv := "", writable := "", constructOnly := "" }
    none (some [.mk ⟨nm, ""⟩ none]) none "" ""

/-- The return-packing rule exactly as the specification states it
(spec 4.5), for comparison with the embedded getFunction. -/
def specReturnPacking (retType : String) (outParams : List String) : String :=
  if retType = "void" ∧ outParams.length = 1 then (outParams.head?).getD ""
  else if outParams.length + (if retType = "void" then 0 else 1) > 1 then
    "[ " ++ String.intercalate ", "
      (if retType = "void" then outParams
       else ("/* returnType */ " ++ retType) :: outParams) ++ " ]"
  else retType

/-- An untyped out-direction parameter. -/
def mkOutParam (nm : String) : GirVariable :=
  .mk { name := nm, direction := "out", nullable := "", allowNone := "",
        optional := "", closure := "", destroy := "", introspectable := "",
        priv := "", writable := "", constructOnly := "" }
    none none none "" ""

/-- A void function with one out parameter. -/
def c4Func : GirFunction :=
  .mk { name := "f", introspectable := "", shadowedBy := "", shadows := "" }
    (some [.mk [mkOutParam "o"] []]) none ""

/-- A parameter of GIR type gint with the given nullable attribute. -/
def mkIntParam (nm nullableAttr : String) : GirVariable :=
  .mk { name := nm, direction := "", nullable := nullableAttr, allowNone := "",
        optional := "", closure := "", destroy := "", introspectable := "",
        priv := "", writable := "", constructOnly := "" }
    none (some [.mk ⟨"gint", ""⟩ none]) none "" ""

/-- A module state that maps the plain type gint to number. -/
def c3State : ModState :=
  { mkState "Ns" (fun _ => none) with
    podTypeMap := fun s => if s = "gint" then some "number" else none }

def c3TL : GirVariable → Bool → String :=
  fun v o => typeLookupTransformed 1 c3State v o

/-- A module state for the type-resolution fixed-point witness. -/
def c9WState : ModState :=
  mkState "M" (fun s => if s = "A.B" then some (mkBareClass "B" "")
    else if s = "M.B" then some (mkBareClass "B" "") else none)

/-- Concrete class for the C2 counterexample: introspectable="0". -/
def c2Class : GirClass :=
  { mkBareClass "Foo" "" with
    attrs := { name := "Foo", parent := "", introspectable := "0",
               gtypeStructFor := "" },
    module := "Ns", fullSymName := "Ns.Foo" }

/-- Namespace holding only the non-introspectable class. -/
def c2NS : GirNamespace :=
  { enumeration := [], bitfield := [], constant := [], func := [],
    callback := [], iface := [], cls := [c2Class], record := [], union := [],
    aliases := [] }

/-- Module state for the C2 counterexample. -/
def c2State : ModState := mkState "Ns" (fun _ => none)

/-- `seg` occurs as a contiguous segment of `l`. -/
def listContainsSeg (seg l : List String) : Prop :=
  ∃ s t, l = s ++ seg ++ t

def c7State : ModState :=
  mkState "M" (fun s =>
    if s = "M.A" then some (mkCycCls "A" "")
    else if s = "M.D" then some (mkCycCls "D" "A")
    else none)

def c7D : GirClass := mkCycCls "D" "A"

def c7getter : GirClass → List String → List ScopedFunctionDescription × List String :=
  fun c ln =>
    if c.fullSymName = "M.D" then
      ([(["    m(x: number): void"], some "m", some "M.D")], ln)
    else
      ([(["    m(): void"], some "m", some "M.A")], ln)

def c7Res : List String :=
  ["    /* Instance methods */", "    m(x: number): void",
   "    /* False overload, use M.A.prototype.m.call() */", "    m(): void"]

/-! ## Theorems -/

/-- C10: boolean GIR attributes are decoded by integer parsing, not by
literal matching: a present (non-empty) attribute string decodes to false
iff parseInt yields 0; every other non-empty string (such as "false")
decodes to true; consequently loadTypesInternal inserts a construct
annotated introspectable="false", while "0" and "00" exclude it. -/
theorem girBool_parses_integers :
    (∀ s d, s ≠ "" → (girBool s d = false ↔ jsParseInt s = some 0)) ∧
    girBool "false" true = true ∧ girBool "0" true = false ∧
    girBool "00" true = false ∧
    (∀ st dict (c : GirClass), c.attrs.introspectable = "false" →
      ((loadTypesInternal st dict [c]).1 (st.name ++ "." ++ c.attrs.name)).isSome) ∧
    (∀ st dict (c : GirClass), c.attrs.introspectable = "0" →
      (loadTypesInternal st dict [c]).1 = dict) := by
  refine ⟨?_, by decide, by decide, by decide, ?_, ?_⟩
  · intro s d h
    have ht : jsTruthy s = true := by simpa [jsTruthy] using h
    by_cases hp : jsParseInt s = some 0 <;> simp [girBool, ht, hp]
  · intro st dict c hc
    have h1 : girBool "false" true = true := by decide
    simp [loadTypesInternal, hc, h1, symInsert, jsTruthy]
  · intro st dict c hc
    have h1 : girBool "0" true = false := by decide
    simp [loadTypesInternal, hc, h1, jsTruthy]

/-- Witness for girBool_parses_integers: the non-numeric string "banana"
is related to its parseInt result as the theorem states. -/
theorem girBool_parses_integers_witness :
    girBool "banana" false = false ↔ jsParseInt "banana" = some 0 :=
  girBool_parses_integers.1 "banana" false (by decide)

/-- C8 (code bug): on a malformed declaration string with no parenthesis,
stripParamNames prints the bad-function-definition warning and then the
source throws a TypeError (`lb[1]` is `undefined` and `.split` on it
throws), modelled as the `none` result: canonicalization does not return
a result on such input. -/
theorem stripParamNames_crashes_on_malformed :
    stripParamNames "nofunc" = (["Bad function definition nofunc"], none) ∧
    stripParamNames "f(a: number, b?: string): void" =
      ([], some "f(: number, ?: string): void") := by
  constructor <;> rfl

/-- C1 counterexample: inserting a second construct under an
already-present qualified name emits the duplicate-symbol diagnostic but
the table keeps the LAST entry: the lookup afterwards returns the second
declaration (parent "P2"), not the first (parent "P1"). -/
theorem duplicate_symbol_keeps_last_not_first :
    ((loadTypesInternal c1State
        ((loadTypesInternal c1State (fun _ => none) [c1First]).1) [c1Second]).2
      = ["Duplicate symbol: Ns.Foo"]) ∧
    ((loadTypesInternal c1State
        ((loadTypesInternal c1State (fun _ => none) [c1First]).1) [c1Second]).1
        "Ns.Foo"
      = some { c1Second with module := "Ns", fullSymName := "Ns.Foo" }) ∧
    ¬ ((loadTypesInternal c1State
        ((loadTypesInternal c1State (fun _ => none) [c1First]).1) [c1Second]).1
        "Ns.Foo"
      = some { c1First with module := "Ns", fullSymName := "Ns.Foo" }) := by
  refine ⟨rfl, rfl, ?_⟩
  intro h
  rw [show ((loadTypesInternal c1State
      ((loadTypesInternal c1State (fun _ => none) [c1First]).1) [c1Second]).1
      "Ns.Foo"
    = some { c1Second with module := "Ns", fullSymName := "Ns.Foo" }) from rfl] at h
  simp [c1First, c1Second, mkBareClass] at h

/-- C1 amended: a duplicate insertion emits the duplicate-symbol
diagnostic and REPLACES the entry: lookup afterwards returns the newly
inserted declaration (annotated with module and qualified name). -/
theorem duplicate_symbol_warns_and_overwrites (st : ModState) (dict : SymTable)
    (c : GirClass)
    (hIntro : ¬ (jsTruthy c.attrs.introspectable ∧
      ¬ girBool c.attrs.introspectable true))
    (hDup : (dict (st.name ++ "." ++ c.attrs.name)).isSome) :
    (loadTypesInternal st dict [c]).2 =
      ["Duplicate symbol: " ++ st.name ++ "." ++ c.attrs.name] ∧
    (loadTypesInternal st dict [c]).1 (st.name ++ "." ++ c.attrs.name) =
      some { c with module := st.name,
                    fullSymName := st.name ++ "." ++ c.attrs.name } := by
  have hcond : ¬ (jsTruthy c.attrs.introspectable = true ∧
      girBool c.attrs.introspectable true = false) := by
    simpa using hIntro
  have hDup' : ¬ dict (st.name ++ ("." ++ c.attrs.name)) = none := by
    rw [← String.append_assoc]
    simpa [Option.isSome_iff_ne_none] using hDup
  simp [loadTypesInternal, hcond, hDup', symInsert, String.append_assoc]

set_option maxRecDepth 40000

/-- The embedded return-type computation of getFunction coincides with the
spec's packing rule. -/
theorem packing_cases (retType : String) (outParams : List String) :
    (if outParams.length + (if retType = "void" then 0 else 1) > 1 then
        "[ " ++ String.intercalate ", "
          (if ¬ retType = "void" then ("/* returnType */ " ++ retType) :: outParams
           else outParams) ++ " ]"
      else if outParams.length = 1 ∧ retType = "void" then (outParams.head?).getD ""
      else retType)
    = specReturnPacking retType outParams := by
  unfold specReturnPacking
  by_cases hv : retType = "void"
  · by_cases h1 : outParams.length = 1 <;> simp [hv, h1]
  · simp [hv]

/-- C4: for every callable emitted without an override return type (and
not replaced by a patch), the emitted return type follows the packing
rule: a void return with exactly one out parameter becomes that out
parameter's entry; when outs plus a non-void return exceed one they are
packed into a positional tuple with the return first; otherwise the
declared return type is kept. -/
theorem return_type_packing (fuel : Nat) (st : ModState) (e : GirFunction)
    (pre fnp : String)
    (hIntro : girBool e.attrs.introspectable true = true)
    (hShadow : e.attrs.shadowedBy = "")
    (hPatch : st.patch e.fullSymName = none) :
    getFunction fuel st e pre fnp "" false false =
      ([pre ++
        transformFunctionName
          (if jsTruthy fnp then
            fnp ++ (if jsTruthy e.attrs.shadows then e.attrs.shadows else e.attrs.name)
          else (if jsTruthy e.attrs.shadows then e.attrs.shadows else e.attrs.name)) ++
        "(" ++
        (getParameters fuel st (getReturnType fuel st e).2 (e.parameters.getD [])).1 ++
        ")" ++ ":" ++ " " ++
        specReturnPacking (getReturnType fuel st e).1
          (getParameters fuel st (getReturnType fuel st e).2 (e.parameters.getD [])).2],
       some (transformFunctionName
          (if jsTruthy fnp then
            fnp ++ (if jsTruthy e.attrs.shadows then e.attrs.shadows else e.attrs.name)
          else (if jsTruthy e.attrs.shadows then e.attrs.shadows else e.attrs.name)))) := by
  have h1 : ¬ (¬ girBool e.attrs.introspectable true = true ∨
      jsTruthy e.attrs.shadowedBy = true) := by
    simp [hIntro, hShadow, jsTruthy]
  rw [← packing_cases]
  simp only [getFunction, getFunctionWith, getParameters, getReturnType]
  rw [if_neg h1]
  have hov : ¬ (jsTruthy "" = true) := by decide
  by_cases hf : jsTruthy e.fullSymName = true
  · simp only [hf, if_true, hPatch]
    simp only [Option.isSome_none, Bool.false_eq_true, false_and, if_false, hov]
  · simp only [hf, Bool.false_eq_true, if_false]
    simp [hov]

/-- Witness for return_type_packing: a void function with a single out
parameter is emitted with the out entry as its return type. -/
theorem return_type_packing_witness :
    getFunction 1 c1State c4Func "    " "" "" false false =
      (["    f(): /* o */ any"], some "f") :=
  return_type_packing 1 c1State c4Func "    " "" (by decide) rfl rfl

/-- Any-nonnullable over the non-out filter equals the negated
all-nullable-or-out test. -/
theorem filter_any_nonnullable (l : List GirVariable) :
    ((l.filter (fun q => decide (q.attrs.direction ≠ "out"))).any
        (fun q => decide (¬ paramIsNullable q = true))) =
      !(l.all (fun q => (q.attrs.direction == "out") || paramIsNullable q)) := by
  induction l with
  | nil => rfl
  | cons a t ih =>
    rw [List.filter_cons]
    by_cases hd : a.attrs.direction = "out"
    · rw [if_neg (by simp [hd])]
      rw [ih, List.all_cons]
      simp [hd]
    · rw [if_pos (by simp [hd])]
      rw [List.any_cons, ih, List.all_cons]
      by_cases hnul : paramIsNullable a = true <;> simp [hnul, hd]

/-- C3: a non-out parameter p at position i of the parameter list, not on
the skip list, is emitted with the optional marker '?' appended to its
name if and only if p is annotated nullable (or allow-none or optional,
via paramIsNullable) and every parameter after p in the same list is
either direction out or itself nullable — i.e. no subsequent non-nullable
non-out parameter exists. -/
theorem param_optional_marker (tl : GirVariable → Bool → String)
    (arr skip : List GirVariable) (p : GirVariable) (rest : List GirVariable)
    (i : Nat)
    (hmem : arr.get? i = some p)
    (hidx : jsIndexOf varBEq arr p = (i : Int))
    (hskip : jsIndexOf varBEq skip p = -1)
    (hdir : p.attrs.direction ≠ "out") :
    (getParamsLoopWith tl arr skip (p :: rest)).1.head? =
      some (transformParameterName
          (if jsTruthy p.attrs.name then p.attrs.name else "-") false
        ++ (if paramIsNullable p ∧
              (arr.drop (i + 1)).all
                (fun q => (q.attrs.direction == "out") || paramIsNullable q)
            then "?" else "")
        ++ ": " ++ tl p (p.attrs.direction = "out" ∨ p.attrs.direction = "inout")) := by
  have hlt : i < arr.length := by
    by_contra hge
    rw [List.get?_eq_none.mpr (by omega)] at hmem
    exact Option.noConfusion hmem
  have hget : arr[i] = p := by
    have h := hmem
    rw [List.get?_eq_getElem?] at h
    simpa [List.getElem?_eq_getElem hlt] using h
  have hdropi : arr.drop i = p :: arr.drop (i + 1) := by
    rw [List.drop_eq_getElem_cons hlt, hget]
  simp only [getParamsLoopWith]
  rw [if_neg (by simp [hskip])]
  rw [if_neg (by simp [hdir])]
  rcases hrec : getParamsLoopWith tl arr skip rest with ⟨d, o⟩
  simp only [List.head?_cons, Option.some.injEq]
  have hfoll : (List.filter (fun q => decide (q.attrs.direction ≠ "out"))
        (List.filter (fun _ => decide (jsIndexOf varBEq skip p = -1))
          (List.drop (jsIndexOf varBEq arr p).toNat arr))) =
      p :: (arr.drop (i + 1)).filter (fun q => decide (q.attrs.direction ≠ "out")) := by
    rw [hidx, hskip]
    simp only [Int.toNat_natCast, decide_True, List.filter_true, hdropi]
    rw [List.filter_cons_of_pos (by simpa using hdir)]
  rw [hfoll]
  have hany : ((p :: (arr.drop (i + 1)).filter
        (fun q => decide (q.attrs.direction ≠ "out"))).any
          (fun q => decide (¬ paramIsNullable q = true))) =
      (!(paramIsNullable p) ||
        !((arr.drop (i + 1)).all
          (fun q => (q.attrs.direction == "out") || paramIsNullable q))) := by
    rw [List.any_cons, filter_any_nonnullable]
    simp
  rw [hany]
  by_cases hn : paramIsNullable p = true
  · by_cases hall : (arr.drop (i + 1)).all
        (fun q => (q.attrs.direction == "out") || paramIsNullable q) = true <;>
      simp [hn, hall]
  · simp [hn]

/-- Witness for param_optional_marker at the spec's scenario 3: in
f(a nullable, b) the nullable a is emitted without '?', and in
f(a, b nullable) the trailing nullable b is emitted with '?'. -/
theorem param_optional_marker_witness :
    (getParamsLoopWith c3TL [mkIntParam "a" "1", mkIntParam "b" ""] []
        [mkIntParam "a" "1", mkIntParam "b" ""]).1.head? =
      some "a: number | null" ∧
    (getParamsLoopWith c3TL [mkIntParam "a" "", mkIntParam "b" "1"] []
        [mkIntParam "b" "1"]).1.head? = some "b?: number | null" :=
  ⟨param_optional_marker c3TL [mkIntParam "a" "1", mkIntParam "b" ""] []
      (mkIntParam "a" "1") [mkIntParam "b" ""] 0 rfl (by decide) rfl (by decide),
   param_optional_marker c3TL [mkIntParam "a" "", mkIntParam "b" "1"] []
      (mkIntParam "b" "1") [] 1 rfl (by decide) rfl (by decide)⟩

/-- Visit-list length bound for one walker invocation, given a bound on
the recursive reference. -/
theorem traverseBodyWith_len (st : ModState)
    (recur : GirClass → Nat → Bool → List String × List GirClass)
    (c : GirClass) (depth : Nat) (r : Bool) (K : Nat)
    (hrec : ∀ pp r', (recur pp (depth + 1) r').2.length ≤ K) :
    (traverseBodyWith st recur c depth r).2.length ≤
      if MAXIMUM_RECUSION_DEPTH ≤ depth then 1 else K + 1 := by
  simp only [traverseBodyWith]
  generalize circularCheckWarn st c
    (traverseParentPtr st (getClassDetails st c).parentName
      (getClassDetails st c).qualifiedParentName) = cw
  generalize hR : (if cw.isSome = true then false else r) = R
  split
  · rename_i h
    simp [h]
  · rename_i h
    split
    · rename_i pp heq
      split
      · have hbound := hrec pp R
        rcases hrc : recur pp (depth + 1) R with ⟨w, v⟩
        rw [hrc] at hbound
        simp [hrc]
        simpa using hbound
      · simp
    · simp

/-- An invocation at or past the depth bound visits only the class itself
and logs the depth warning. -/
theorem traverseBodyWith_at_bound (st : ModState)
    (recur : GirClass → Nat → Bool → List String × List GirClass)
    (c : GirClass) (depth : Nat) (r : Bool)
    (h : MAXIMUM_RECUSION_DEPTH ≤ depth) :
    (traverseBodyWith st recur c depth r).2 = [c] ∧
    ("Maximum recursion depth of " ++ toString MAXIMUM_RECUSION_DEPTH ++
        " reached for \"" ++ c.attrs.name ++ "\"")
      ∈ (traverseBodyWith st recur c depth r).1 := by
  simp only [traverseBodyWith]
  rw [if_pos h]
  simp

/-- Every knot level is one body invocation for some recursive
reference. -/
theorem traverseAux_eq_body (st : ModState) (gas : Nat) (c : GirClass)
    (depth : Nat) (r : Bool) :
    ∃ recur, traverseAux st gas c depth r = traverseBodyWith st recur c depth r := by
  cases gas with
  | zero => exact ⟨_, rfl⟩
  | succ g => exact ⟨_, rfl⟩

/-- Visit-list length bound for the walker at any gas and depth. -/
theorem traverseAux_len_le (st : ModState) :
    ∀ gas (c : GirClass) (depth : Nat) (r : Bool),
      (traverseAux st gas c depth r).2.length ≤
        max 1 (MAXIMUM_RECUSION_DEPTH + 1 - depth) := by
  intro gas
  induction gas with
  | zero =>
    intro c depth r
    have h := traverseBodyWith_len st (fun _ _ _ => ([], [])) c depth r 0
      (fun _ _ => by simp)
    simp only [traverseAux]
    refine le_trans h ?_
    split <;> rename_i hd <;> simp [MAXIMUM_RECUSION_DEPTH] at hd ⊢ <;> omega
  | succ g ih =>
    intro c depth r
    have h := traverseBodyWith_len st (fun pp d' r' => traverseAux st g pp d' r')
      c depth r (max 1 (MAXIMUM_RECUSION_DEPTH + 1 - (depth + 1)))
      (fun pp r' => ih pp (depth + 1) r')
    simp only [traverseAux]
    refine le_trans h ?_
    split <;> rename_i hd <;> simp [MAXIMUM_RECUSION_DEPTH] at hd ⊢ <;> omega

/-- C6: the inheritance walk invokes the visit callback for at most 101
classes from a depth-0 start (start plus 100 ancestors; the recursion
never passes depth 100), and any invocation at or past the bound logs the
depth warning and stops descending, visiting only the class itself;
termination on every input, including cyclic parent graphs, holds by
construction of the embedding (the walk is a total function). -/
theorem traverse_depth_bounded :
    (∀ st (c : GirClass) (r : Bool),
      (traverseInheritanceTree st c 0 r).2.length ≤ 101) ∧
    (∀ st (c : GirClass) (r : Bool) (depth : Nat),
      MAXIMUM_RECUSION_DEPTH ≤ depth →
      (traverseInheritanceTree st c depth r).2 = [c] ∧
      ("Maximum recursion depth of " ++ toString MAXIMUM_RECUSION_DEPTH ++
          " reached for \"" ++ c.attrs.name ++ "\"")
        ∈ (traverseInheritanceTree st c depth r).1) := by
  constructor
  · intro st c r
    have h := traverseAux_len_le st (MAXIMUM_RECUSION_DEPTH + 1 - 0) c 0 r
    simp only [traverseInheritanceTree]
    simp only [MAXIMUM_RECUSION_DEPTH] at h ⊢
    omega
  · intro st c r depth hdep
    obtain ⟨recur, hb⟩ :=
      traverseAux_eq_body st (MAXIMUM_RECUSION_DEPTH + 1 - depth) c depth r
    simp only [traverseInheritanceTree, hb]
    exact traverseBodyWith_at_bound st recur c depth r hdep

/-- Witness for traverse_depth_bounded at the depth bound on a concrete
class. -/
theorem traverse_depth_bounded_witness :
    (traverseInheritanceTree cycState (mkCycCls "A" "B") 100 true).2 =
      [mkCycCls "A" "B"] ∧
    ("Maximum recursion depth of " ++ toString MAXIMUM_RECUSION_DEPTH ++
        " reached for \"" ++ (mkCycCls "A" "B").attrs.name ++ "\"")
      ∈ (traverseInheritanceTree cycState (mkCycCls "A" "B") 100 true).1 :=
  traverse_depth_bounded.2 cycState (mkCycCls "A" "B") true 100 (by decide)

/-- C5 counterexample: in the three-class parent cycle A→B→C→A of module
M, the walk from A does reach the point where the next parent in the walk
is the starting class's qualified name (a visited class has parent A,
which qualifies to M.A), yet no circular-dependency diagnostic is ever
emitted: the walk keeps descending, visits 101 classes and stops only at
the depth bound; so the claim as stated fails on cycles longer than
two. -/
theorem three_cycle_no_circular_warning :
    ((traverseInheritanceTree cycState (mkCycCls "A" "B")).2.map
        (fun c => c.attrs.parent)).contains "A" = true ∧
    ((traverseInheritanceTree cycState (mkCycCls "A" "B")).1.filter
        (fun w => strStartsWith w "Circular")) = [] ∧
    (traverseInheritanceTree cycState (mkCycCls "A" "B")).2.length = 101 := by
  refine ⟨by decide, by decide, by decide⟩

/-- C5 amended: the walk detects exactly the two-step cycles: whenever
the resolved parent's own qualified parent equals the current class's
fully-qualified name, the circular-dependency diagnostic is emitted and
the walk does not descend into that parent, while the visit callback
still runs for the class itself (so its direct members are still
emitted); longer cycles are left to the recursion-depth bound. -/
theorem two_cycle_detected (st : ModState) (c : GirClass) (depth : Nat)
    (r : Bool) (w : String)
    (hw : circularCheckWarn st c
        (traverseParentPtr st (getClassDetails st c).parentName
          (getClassDetails st c).qualifiedParentName) = some w) :
    w ∈ (traverseInheritanceTree st c depth r).1 ∧
    (traverseInheritanceTree st c depth r).2 = [c] := by
  obtain ⟨recur, hb⟩ :=
    traverseAux_eq_body st (MAXIMUM_RECUSION_DEPTH + 1 - depth) c depth r
  simp only [traverseInheritanceTree, hb, traverseBodyWith, hw,
    Option.isSome_some, if_true]
  constructor
  · split
    · simp
    · split <;> simp
  · split
    · simp
    · split <;> simp

/-- Witness for two_cycle_detected: the A↔B parent cycle of module M
emits the diagnostic and visits only the start. -/
theorem two_cycle_detected_witness :
    ("Circular dependency found! Ignore next parent \"M.A\".") ∈
      (traverseInheritanceTree twoCycState (mkCycCls "A" "B") 0 true).1 ∧
    (traverseInheritanceTree twoCycState (mkCycCls "A" "B") 0 true).2 =
      [mkCycCls "A" "B"] :=
  two_cycle_detected twoCycState (mkCycCls "A" "B") 0 true _ (by decide)

/-- Witness for duplicate_symbol_warns_and_overwrites at a concrete
two-insertion sequence. -/
theorem duplicate_symbol_warns_and_overwrites_witness :
    (loadTypesInternal c1State
        (symInsert (fun _ => none) (c1State.name ++ "." ++ c1Second.attrs.name) c1First)
        [c1Second]).2 =
      ["Duplicate symbol: " ++ c1State.name ++ "." ++ c1Second.attrs.name] ∧
    (loadTypesInternal c1State
        (symInsert (fun _ => none) (c1State.name ++ "." ++ c1Second.attrs.name) c1First)
        [c1Second]).1 (c1State.name ++ "." ++ c1Second.attrs.name) =
      some { c1Second with module := c1State.name,
                           fullSymName := c1State.name ++ "." ++ c1Second.attrs.name } :=
  duplicate_symbol_warns_and_overwrites c1State _ c1Second (by decide)
    (by simp [symInsert])

/-- Resolution of a plain dotted-name node under plain/full map misses:
the symbol-table branch, with the local-module prefix stripped. -/
theorem typeLookup_plain (fuel : Nat) (st : ModState) (q : String)
    (hname : st.name ≠ "") (hq : q ≠ "")
    (hglib : glibListRegexTest q = false)
    (hpod : st.podTypeMap q = none)
    (hfull : st.fullTypeMap st.config.environment true q = none)
    (hdot : strContainsChar q '.' = true)
    (hsym : (st.symTable q).isSome) :
    typeLookup (fuel + 1) st (mkTypeNode q) true =
      (if strStartsWith q (st.name ++ ".") then
        strDrop q (st.name ++ ".").length
      else q) := by
  have hqt : jsTruthy q = true := by simpa [jsTruthy] using hq
  have hnt : jsTruthy st.name = true := by simpa [jsTruthy] using hname
  have hnotnone : ¬ (st.symTable q) = none := by
    simpa [Option.isSome_iff_ne_none] using hsym
  simp only [typeLookup, typeLookupFuel, typeLookupWith, mkTypeNode,
    GirVariable.array, GirVariable.type, GirVariable.callback,
    GirVariable.module, GirVariable.fullSymName, GirTypeElem.attrs,
    GirTypeElem.type, hglib, paramIsNullable, girBool, jsTruthy]
  simp [GirVariable.attrs, GirVariable.array, GirVariable.type,
    GirVariable.callback, GirVariable.module, GirTypeElem.attrs,
    GirTypeElem.type, jsParseInt, hpod, hfull, hdot, hqt, hnt, hsym,
    hnotnone, jsTruthy, hq, hname, String.append_empty]

/-- Resolution of a plain undotted-name node: qualification with the
owning module followed by the symbol-table branch. -/
theorem typeLookup_plain_nodot (fuel : Nat) (st : ModState) (l q : String)
    (heq : st.name ++ "." ++ l = q)
    (hname : st.name ≠ "")
    (hglib : glibListRegexTest l = false)
    (hpod : st.podTypeMap l = none)
    (hfull : st.fullTypeMap st.config.environment true l = none)
    (hdot : strContainsChar l '.' = false)
    (hq : q ≠ "")
    (hsym : (st.symTable q).isSome)
    (hs : strStartsWith q (st.name ++ ".") = true) :
    typeLookup (fuel + 1) st (mkTypeNode l) true =
      strDrop q (st.name ++ ".").length := by
  have hqt : jsTruthy q = true := by simpa [jsTruthy] using hq
  have hnt : jsTruthy st.name = true := by simpa [jsTruthy] using hname
  have hnotnone : ¬ (st.symTable q) = none := by
    simpa [Option.isSome_iff_ne_none] using hsym
  simp only [typeLookup, typeLookupFuel, typeLookupWith, mkTypeNode,
    GirVariable.array, GirVariable.type, GirVariable.callback,
    GirVariable.module, GirVariable.fullSymName, GirTypeElem.attrs,
    GirTypeElem.type, hglib, paramIsNullable, girBool, jsTruthy]
  simp [GirVariable.attrs, GirVariable.array, GirVariable.type,
    GirVariable.callback, GirVariable.module, GirTypeElem.attrs,
    GirTypeElem.type, jsParseInt, hpod, hfull, hdot, heq, hqt, hnt, hsym,
    hnotnone, jsTruthy, hq, hname, hs, String.append_empty]

/-- C9: type resolution is idempotent on already-qualified names resolved
through the symbol table: for a plain named-type node whose qualified name
is found in the symbol table (and misses the plain/full type maps, which
are module data), resolving a node carrying the result of the resolution
yields the same string again. -/
theorem typeLookup_idempotent (fuel : Nat) (st : ModState) (q : String)
    (hname : st.name ≠ "")
    (hdot : strContainsChar q '.' = true)
    (hsym : (st.symTable q).isSome)
    (hpod : st.podTypeMap q = none)
    (hfull : st.fullTypeMap st.config.environment true q = none)
    (hglib : glibListRegexTest q = false)
    (hlocal : strStartsWith q (st.name ++ ".") = true →
      (st.name ++ "." ++ strDrop q (st.name ++ ".").length = q ∧
       strContainsChar (strDrop q (st.name ++ ".").length) '.' = false ∧
       st.podTypeMap (strDrop q (st.name ++ ".").length) = none ∧
       st.fullTypeMap st.config.environment true
         (strDrop q (st.name ++ ".").length) = none ∧
       glibListRegexTest (strDrop q (st.name ++ ".").length) = false)) :
    typeLookup (fuel + 1) st
        (mkTypeNode (typeLookup (fuel + 1) st (mkTypeNode q) true)) true =
      typeLookup (fuel + 1) st (mkTypeNode q) true := by
  have hq : q ≠ "" := by
    intro h
    subst h
    simp [strContainsChar] at hdot
  rw [typeLookup_plain fuel st q hname hq hglib hpod hfull hdot hsym]
  by_cases hs : strStartsWith q (st.name ++ ".") = true
  · rw [if_pos hs]
    obtain ⟨heq, hdot2, hpod2, hfull2, hglib2⟩ := hlocal hs
    exact typeLookup_plain_nodot fuel st _ q heq hname hglib2 hpod2 hfull2
      hdot2 hq hsym hs
  · rw [if_neg hs]
    rw [typeLookup_plain fuel st q hname hq hglib hpod hfull hdot hsym]
    rw [if_neg hs]

/-- Witness for typeLookup_idempotent on both resolution shapes: a
foreign-qualified name A.B resolves to itself, and a local-qualified name
M.B resolves to the stripped local name B, both fixed points of a second
resolution. -/
theorem typeLookup_idempotent_witness :
    typeLookup 1 c9WState
        (mkTypeNode (typeLookup 1 c9WState (mkTypeNode "A.B") true)) true =
      typeLookup 1 c9WState (mkTypeNode "A.B") true ∧
    typeLookup 1 c9WState
        (mkTypeNode (typeLookup 1 c9WState (mkTypeNode "M.B") true)) true =
      typeLookup 1 c9WState (mkTypeNode "M.B") true :=
  ⟨typeLookup_idempotent 0 c9WState "A.B" (by decide) (by decide)
      (by decide) rfl rfl (by decide) (by intro h; exact absurd h (by decide)),
   typeLookup_idempotent 0 c9WState "M.B" (by decide) (by decide)
      (by decide) rfl rfl (by decide)
      (fun _ => ⟨by decide, by decide, rfl, rfl, by decide⟩)⟩


set_option maxRecDepth 40000 in
/-- C2 (counterexample): a class carrying introspectable="0" is still emitted.
`exportModuleDecls` routes classes through `exportClassInternal`, which never
tests the introspectable attribute, so the declaration "export class Foo {"
appears in the output even though `girBool "0" true = false` says the
construct is non-introspectable. -/
theorem introspectable_zero_class_still_emitted :
    (exportModuleDecls 3 c2State c2NS none).isSome ∧
    "export class Foo \x7b" ∈ (exportModuleDecls 3 c2State c2NS none).getD [] ∧
    girBool "0" true = false := by decide

/-- C2 (amended): the introspectable="0" exclusion holds for every construct
kind other than classes, interfaces, records and unions: enumerations and
bitfields (`exportEnumeration`), functions (`exportFunction`), callbacks
(`exportCallback`), aliases (`exportAlias`) and constants (`exportConstant`)
each emit nothing when `girBool introspectable true` is false; and an absent
attribute (the empty string in the embedding) defaults to true. -/
theorem introspectable_zero_nonclass_excluded :
    (∀ (e : GirEnumeration), girBool e.attrs.introspectable true = false →
      exportEnumeration e = []) ∧
    (∀ fuel st (e : GirFunction), girBool e.attrs.introspectable true = false →
      exportFunction fuel st e = []) ∧
    (∀ fuel st (e : GirFunction), girBool e.attrs.introspectable true = false →
      exportCallback fuel st e = []) ∧
    (∀ fuel st (v : GirVariable), girBool v.attrs.introspectable true = false →
      exportAlias fuel st v = []) ∧
    (∀ fuel st (v : GirVariable) (constNames : List String),
      girBool v.attrs.introspectable true = false →
      (exportConstant fuel st v constNames).1 = []) ∧
    (∀ s, jsTruthy s = false → girBool s true = true) := by
  refine ⟨?_, ?_, ?_, ?_, ?_, ?_⟩
  · intro e h; simp [exportEnumeration, h]
  · intro fuel st e h
    simp [exportFunction, getFunction, getFunctionWith, h]
  · intro fuel st e h; simp [exportCallback, h]
  · intro fuel st v h; simp [exportAlias, h]
  · intro fuel st v constNames h
    by_cases hn : jsTruthy v.attrs.name = true
    · simp [exportConstant, getVariable, hn, h]
    · simp [exportConstant, getVariable, hn]
  · intro s h; simp [girBool, h]

/-- Witness for C2 amended: a concrete introspectable="0" enumeration is
excluded from the output. -/
theorem introspectable_zero_nonclass_excluded_witness :
    exportEnumeration
      { attrs := { name := "E", introspectable := "0" },
        member := [{ name := "a", glibNick := "", cIdentifier := "" }] } = [] :=
  introspectable_zero_nonclass_excluded.1
    { attrs := { name := "E", introspectable := "0" },
      member := [{ name := "a", glibNick := "", cIdentifier := "" }] }
    (by decide)

theorem listContainsSeg_self (seg t : List String) :
    listContainsSeg seg (seg ++ t) := ⟨[], t, rfl⟩

theorem listContainsSeg_append_left (s : List String) {seg l : List String}
    (h : listContainsSeg seg l) : listContainsSeg seg (s ++ l) := by
  obtain ⟨a, b, rfl⟩ := h
  exact ⟨s ++ a, b, by simp⟩

theorem listContainsSeg_append_right (t : List String) {seg l : List String}
    (h : listContainsSeg seg l) : listContainsSeg seg (l ++ t) := by
  obtain ⟨a, b, rfl⟩ := h
  exact ⟨a, b ++ t, by simp⟩

theorem listContainsSeg_cons (x : String) {seg l : List String}
    (h : listContainsSeg seg l) : listContainsSeg seg (x :: l) :=
  listContainsSeg_append_left [x] h

theorem mapGet_cons {α : Type} (a : String × α) (m : List (String × α))
    (k : String) :
    mapGet (a :: m) k = if a.1 = k then some a.2 else mapGet m k := by
  by_cases h : a.1 = k
  · simp [mapGet, List.find?_cons, h]
  · simp [mapGet, List.find?_cons, h]

theorem mapDelete_cons {α : Type} (a : String × α) (m : List (String × α))
    (q : String) :
    mapDelete (a :: m) q = if a.1 = q then mapDelete m q else a :: mapDelete m q := by
  by_cases h : a.1 = q
  · simp [mapDelete, List.filter_cons, h]
  · simp [mapDelete, List.filter_cons, h]

theorem mapGet_mapDelete_ne {α : Type} (m : List (String × α)) (k q : String)
    (h : k ≠ q) : mapGet (mapDelete m q) k = mapGet m k := by
  induction m with
  | nil => rfl
  | cons a m ih =>
    rw [mapDelete_cons]
    by_cases haq : a.1 = q
    · rw [if_pos haq, ih, mapGet_cons,
        if_neg (fun hh : a.1 = k => h (hh.symm.trans haq))]
    · rw [if_neg haq, mapGet_cons, mapGet_cons]
      by_cases hak : a.1 = k
      · rw [if_pos hak, if_pos hak]
      · rw [if_neg hak, if_neg hak, ih]

theorem clashEmitLoop_emits (methDefs : List String) (nm cls : String)
    (defns : List String) (clashes : List (String × List String))
    (hmem : (cls, defns) ∈ clashes)
    (hmatch : functionSignaturesMatch methDefs defns = some false)
    (res : List String)
    (hres : clashEmitLoop methDefs nm clashes = some res) :
    listContainsSeg
      (("    /* False overload, use " ++ cls ++ ".prototype." ++ nm ++
        ".call() */") :: defns) res := by
  induction clashes generalizing res with
  | nil => cases hmem
  | cons cd rest ih =>
    obtain ⟨c, ds⟩ := cd
    rw [clashEmitLoop] at hres
    cases hf : functionSignaturesMatch methDefs ds with
    | none => rw [hf] at hres; cases hres
    | some b =>
      rw [hf] at hres
      cases hrec : clashEmitLoop methDefs nm rest with
      | none => rw [hrec] at hres; cases hres
      | some r =>
        rw [hrec] at hres
        simp only [Option.map_some', Option.some.injEq] at hres
        subst hres
        rcases List.mem_cons.mp hmem with hhd | htl
        · obtain ⟨rfl, rfl⟩ := Prod.mk.injEq .. ▸ hhd
          rw [hmatch] at hf
          obtain rfl : b = false := (Option.some.inj hf).symm
          exact ⟨[], r, by simp⟩
        · exact listContainsSeg_append_left _ (ih htl r hrec)

theorem overloadsDirect_emits (propertyNames : List String) (nm cls : String)
    (meth : ScopedFunctionDescription) (defns : List String)
    (hnm : meth.2.1 = some nm) (htru : jsTruthy nm = true)
    (hnp : propertyNames.contains nm = false)
    (hmatch : functionSignaturesMatch meth.1 defns = some false)
    (pre : List ScopedFunctionDescription) :
    ∀ (post : List ScopedFunctionDescription) (localNames : List String)
      (fnMap : FnMap) (clashes : List (String × List String))
      (res : List String × List String × FnMap),
      (∀ m' ∈ pre, m'.2.1 ≠ some nm) →
      mapGet fnMap nm = some clashes →
      (cls, defns) ∈ clashes →
      overloadsDirectLoop propertyNames (pre ++ meth :: post) localNames fnMap =
        some res →
      listContainsSeg meth.1 res.1 ∧
      listContainsSeg
        (("    /* False overload, use " ++ cls ++ ".prototype." ++ nm ++
          ".call() */") :: defns) res.1 := by
  induction pre with
  | nil =>
    intro post localNames fnMap clashes res _ hmg hmem hres
    rw [List.nil_append, overloadsDirectLoop, hnm] at hres
    simp only [htru, not_true, if_false, hnp, Bool.false_eq_true,
      if_neg (fun hh : false = true => Bool.false_ne_true hh)] at hres
    simp only [hmg] at hres
    cases hce : clashEmitLoop meth.1 nm clashes with
    | none => simp [hce] at hres
    | some clashDefs =>
      simp only [hce] at hres
      cases hrec : overloadsDirectLoop propertyNames post
          (jsSetAdd localNames nm) (mapDelete fnMap nm) with
      | none => simp [hrec] at hres
      | some r =>
        simp only [hrec, Option.map_some', Option.some.injEq] at hres
        subst hres
        constructor
        · exact ⟨[], clashDefs ++ r.1, by simp⟩
        · show listContainsSeg _ (meth.1 ++ clashDefs ++ r.1)
          rw [List.append_assoc]
          exact listContainsSeg_append_left meth.1
            (listContainsSeg_append_right r.1
              (clashEmitLoop_emits meth.1 nm cls defns clashes hmem hmatch
                clashDefs hce))
  | cons m' pre ih =>
    intro post localNames fnMap clashes res hpre hmg hmem hres
    have h1 : m'.2.1 ≠ some nm := hpre m' (List.mem_cons_self m' pre)
    have hpre' : ∀ m'' ∈ pre, m''.2.1 ≠ some nm :=
      fun m'' hm => hpre m'' (List.mem_cons_of_mem m' hm)
    rw [List.cons_append, overloadsDirectLoop] at hres
    cases hm1 : m'.2.1 with
    | none =>
      rw [hm1] at hres
      exact ih post localNames fnMap clashes res hpre' hmg hmem hres
    | some nm' =>
      have hne : nm ≠ nm' := fun hh => h1 (by rw [hm1, hh])
      rw [hm1] at hres
      by_cases ht' : jsTruthy nm' = true
      · by_cases hp' : propertyNames.contains nm' = true
        · simp only [ht', not_true, if_false, hp', if_true] at hres
          cases hrec : overloadsDirectLoop propertyNames
              (pre ++ meth :: post) localNames fnMap with
          | none => simp [hrec] at hres
          | some r =>
            simp only [hrec, Option.map_some', Option.some.injEq] at hres
            subst hres
            obtain ⟨hA, hB⟩ := ih post localNames fnMap clashes r hpre' hmg hmem hrec
            exact ⟨listContainsSeg_cons _ hA, listContainsSeg_cons _ hB⟩
        · simp only [ht', not_true, if_false,
            if_neg (fun hh => hp' hh)] at hres
          cases hg : mapGet fnMap nm' with
          | none =>
            simp only [hg] at hres
            cases hrec : overloadsDirectLoop propertyNames
                (pre ++ meth :: post) (jsSetAdd localNames nm') fnMap with
            | none => simp [hrec] at hres
            | some r =>
              simp only [hrec, Option.map_some', Option.some.injEq] at hres
              subst hres
              obtain ⟨hA, hB⟩ := ih post _ fnMap clashes r hpre' hmg hmem hrec
              exact ⟨listContainsSeg_append_left _ hA,
                listContainsSeg_append_left _ hB⟩
          | some clashes' =>
            simp only [hg] at hres
            cases hce : clashEmitLoop m'.1 nm' clashes' with
            | none => simp [hce] at hres
            | some cd =>
              simp only [hce] at hres
              cases hrec : overloadsDirectLoop propertyNames
                  (pre ++ meth :: post) (jsSetAdd localNames nm')
                  (mapDelete fnMap nm') with
              | none => simp [hrec] at hres
              | some r =>
                simp only [hrec, Option.map_some', Option.some.injEq] at hres
                subst hres
                have hmg' : mapGet (mapDelete fnMap nm') nm = some clashes := by
                  rw [mapGet_mapDelete_ne fnMap nm nm' hne]; exact hmg
                obtain ⟨hA, hB⟩ :=
                  ih post _ (mapDelete fnMap nm') clashes r hpre' hmg' hmem hrec
                exact ⟨listContainsSeg_append_left _ hA,
                  listContainsSeg_append_left _ hB⟩
      · simp only [ht', not_false_iff, if_true] at hres
        exact ih post localNames fnMap clashes res hpre' hmg hmem hres

/-- C7: for a direct method of the class view whose name resolves through the
collation map to an inherited copy with a differing canonical signature, the
emitted view contains the direct declaration, and the inherited declaration
immediately preceded by the false-overload comment naming the owning class. -/
theorem false_overload_emitted (fuel : Nat) (st : ModState) (girClass : GirClass)
    (localNames : List String)
    (getter : GirClass → List String → List ScopedFunctionDescription × List String)
    (vfunc : Bool) (nm cls : String) (meth : ScopedFunctionDescription)
    (defns : List String) (pre post : List ScopedFunctionDescription)
    (clashes : List (String × List String)) (res : List String × List String)
    (hsplit : (getter girClass localNames).1 = pre ++ meth :: post)
    (hfirst : ∀ m' ∈ pre, m'.2.1 ≠ some nm)
    (hnm : meth.2.1 = some nm) (htru : jsTruthy nm = true)
    (hnp : (collectInheritedPropNames fuel st girClass).contains nm = false)
    (hc : mapGet (collectFnMap st getter girClass) nm = some clashes)
    (hcd : (cls, defns) ∈ clashes)
    (hmatch : functionSignaturesMatch meth.1 defns = some false)
    (hres : processMethodsWithOverloads fuel st girClass localNames getter vfunc =
      some res) :
    listContainsSeg meth.1 res.1 ∧
    listContainsSeg
      (("    /* False overload, use " ++ cls ++ ".prototype." ++ nm ++
        ".call() */") :: defns) res.1 := by
  rw [processMethodsWithOverloads] at hres
  rcases hgp : getter girClass localNames with ⟨methods, ln1⟩
  rw [hgp] at hres hsplit
  simp only at hres hsplit
  subst hsplit
  cases hd : overloadsDirectLoop (collectInheritedPropNames fuel st girClass)
      (pre ++ meth :: post) ln1 (collectFnMap st getter girClass) with
  | none => simp [hd] at hres
  | some r1 =>
    obtain ⟨defs1, ln2, fm2⟩ := r1
    simp only [hd] at hres
    cases hr : overloadsRemainingLoop girClass vfunc fm2 ln2 with
    | none => simp [hr] at hres
    | some r2 =>
      obtain ⟨defs2, ln3⟩ := r2
      simp only [hr] at hres
      obtain ⟨hA, hB⟩ :=
        overloadsDirect_emits (collectInheritedPropNames fuel st girClass)
          nm cls meth defns hnm htru hnp hmatch pre post ln1
          (collectFnMap st getter girClass) clashes (defs1, ln2, fm2)
          hfirst hc hcd hd
      by_cases hlen : (defs1 ++ defs2).length ≠ 0
      · rw [if_pos hlen] at hres
        obtain rfl : _ = res := Option.some.inj hres
        exact ⟨listContainsSeg_cons _ (listContainsSeg_append_right defs2 hA),
          listContainsSeg_cons _ (listContainsSeg_append_right defs2 hB)⟩
      · rw [if_neg hlen] at hres
        obtain rfl : _ = res := Option.some.inj hres
        exact ⟨listContainsSeg_append_right defs2 hA,
          listContainsSeg_append_right defs2 hB⟩

set_option maxRecDepth 40000 in
theorem false_overload_emitted_witness :
    listContainsSeg ["    m(x: number): void"] c7Res ∧
    listContainsSeg
      ["    /* False overload, use M.A.prototype.m.call() */", "    m(): void"]
      c7Res :=
  false_overload_emitted 5 c7State c7D [] c7getter false "m" "M.A"
    (["    m(x: number): void"], some "m", some "M.D") ["    m(): void"]
    [] []
    [("M.D", ["    m(x: number): void"]), ("M.A", ["    m(): void"])]
    (c7Res, ["m"])
    (by decide) (by simp) rfl (by decide) (by decide) (by decide) (by decide)
    (by decide) (by decide)
